import Mathlib

/-!
Verification development for the irrenhaus-api repository (Go).

The definitions below are a shallow embedding of the pure computational
core of the repository's source files (`Torrent.go`, `Shoutbox.go`):
Go strings are modelled as `String`/`List Char` (the source only slices
ASCII data at the places we model, so byte indexing and char indexing
agree), Go's `uint64`/`int64`/`int32` arithmetic is modelled on `ℕ`/`ℤ`
with explicit range checks where the source checks ranges, and Go's
`float64` arithmetic is modelled on `ℚ` (every concrete computation we
reason about is exact: mantissas of at most 15 decimal digits scaled by
powers of two, which IEEE float64 evaluates correctly rounded, and the
comparisons we make are between identical real-valued expressions).
Code that walks the DOM (goquery selections) is modelled by taking the
extracted cell texts as explicit inputs, which is exactly the data the
source reads from the selection.
-/

set_option maxRecDepth 100000
set_option maxHeartbeats 2000000

/-! ## Go string primitives -/

/-- Model of `strings.Split(s, sep)` for a single-character separator:
splits at every occurrence of the separator, keeping empty fields. -/
def goSplitL (sep : Char) : List Char → List (List Char)
  | [] => [[]]
  | c :: cs =>
    match goSplitL sep cs with
    | [] => [[c]]
    | h :: t => if c = sep then [] :: h :: t else (c :: h) :: t

/-- Decides whether `pat` is a prefix of `l` (used to model substring search). -/
def startsWithL : List Char → List Char → Bool
  | [], _ => true
  | _ :: _, [] => false
  | p :: ps, c :: cs => p = c && startsWithL ps cs

/-- Model of `strings.Replace(s, old, new, -1)` / `bytes.Replace`:
replace all non-overlapping occurrences, scanning left to right.
`fuel` is initialised to the length of the string plus one. -/
def goReplaceAllFuel (old new : List Char) : ℕ → List Char → List Char
  | 0, s => s
  | _ + 1, [] => []
  | fuel + 1, c :: cs =>
    if old ≠ [] ∧ startsWithL old (c :: cs) then
      new ++ goReplaceAllFuel old new fuel ((c :: cs).drop old.length)
    else
      c :: goReplaceAllFuel old new fuel cs

def goReplaceAllL (s old new : List Char) : List Char :=
  goReplaceAllFuel old new (s.length + 1) s

/-- Model of `strings.Replace(s, old, new, 1)`: replace only the first occurrence. -/
def goReplaceFirstL : List Char → List Char → List Char → List Char
  | [], _, _ => []
  | c :: cs, old, new =>
    if old ≠ [] ∧ startsWithL old (c :: cs) then
      new ++ (c :: cs).drop old.length
    else
      c :: goReplaceFirstL cs old new

/-- Model of `strings.Contains` / `bytes.Contains`. -/
def containsL (s pat : List Char) : Bool :=
  match s with
  | [] => startsWithL pat []
  | c :: cs => startsWithL pat (c :: cs) || containsL cs pat

/-- Model of `strings.TrimPrefix(s, pre)`. -/
def trimPrefixGoL (s pre : List Char) : List Char :=
  if startsWithL pre s then s.drop pre.length else s

/-- Model of `strings.TrimSuffix(s, suf)`. -/
def trimSuffixGoL (s suf : List Char) : List Char :=
  if startsWithL suf.reverse s.reverse then s.take (s.length - suf.length) else s

/-- Model of `strings.IndexByte(s, c)`, returning `none` for Go's `-1`. -/
def idxOfCharL (c : Char) : List Char → Option ℕ
  | [] => none
  | d :: ds => if d = c then some 0 else (idxOfCharL c ds).map (· + 1)

/-- String-level wrapper for `strings.Split` on one separator character. -/
def goSplit (sep : Char) (s : String) : List (List Char) := goSplitL sep s.data

def goReplaceAll (s old new : String) : String :=
  String.mk (goReplaceAllL s.data old.data new.data)

def goReplaceFirst (s old new : String) : String :=
  String.mk (goReplaceFirstL s.data old.data new.data)

def containsSub (s pat : String) : Bool := containsL s.data pat.data

def trimPrefixGo (s pre : String) : String := String.mk (trimPrefixGoL s.data pre.data)

def trimSuffixGo (s suf : String) : String := String.mk (trimSuffixGoL s.data suf.data)

/-! ## Go numeric parsing (`strconv`) -/

/-- Numeric value of a list of decimal digit characters. -/
def digitsVal (l : List Char) : ℕ :=
  l.foldl (fun a c => 10 * a + (c.toNat - 48)) 0

/-- Decimal digit-string parser: the common core of `strconv.ParseInt`
and `strconv.ParseUint` (base 10), before sign and range handling.
Succeeds exactly on non-empty all-digit strings. -/
def parseNatL (l : List Char) : Option ℕ :=
  if l.isEmpty then none
  else if l.all Char.isDigit then some (digitsVal l) else none

/-- Signed decimal syntax of `strconv.ParseInt` (base 10), without the
bit-size range check. -/
def parseIntRaw (l : List Char) : Option ℤ :=
  match l with
  | [] => none
  | c :: r =>
    if c = '+' then (parseNatL r).map Int.ofNat
    else if c = '-' then (parseNatL r).map (fun n => -(n : ℤ))
    else (parseNatL (c :: r)).map Int.ofNat

/-- Model of `strconv.ParseInt(s, 10, bits)` at call sites that treat any
error as a failure: `none` on syntax or range error. -/
def parseIntBits (bits : ℕ) (l : List Char) : Option ℤ :=
  (parseIntRaw l).bind fun v =>
    if -(2 ^ (bits - 1)) ≤ v ∧ v ≤ 2 ^ (bits - 1) - 1 then some v else none

/-- Model of `strconv.ParseInt(s, 10, bits)` at call sites that ignore the
returned error and keep the value: Go returns `0` on a syntax error and the
clamped boundary value on a range error. -/
def parseIntLoose (bits : ℕ) (l : List Char) : ℤ :=
  match parseIntRaw l with
  | none => 0
  | some v =>
    if v < -(2 ^ (bits - 1)) then -(2 ^ (bits - 1))
    else if v > 2 ^ (bits - 1) - 1 then 2 ^ (bits - 1) - 1
    else v

/-- Model of `strconv.ParseUint(s, 10, bits)` at call sites that reset the
value to `0` on any error. -/
def parseUintDef0 (bits : ℕ) (l : List Char) : ℕ :=
  match parseNatL l with
  | none => 0
  | some n => if n ≤ 2 ^ bits - 1 then n else 0

/-- Plain decimal mantissa accepted by `strconv.ParseFloat`: digits with at
most one dot and at least one digit overall, as an exact rational.  The
source only ever feeds plain decimal notation to `ParseFloat`; the other
spellings Go accepts (exponents, hex floats, `Inf`, `NaN`) are outside the
model and are mapped to `none`, which the call sites turn into `0.0`
exactly like a Go parse error. -/
def parseGoFloatCore (l : List Char) : Option ℚ :=
  let ip := l.takeWhile Char.isDigit
  match l.dropWhile Char.isDigit with
  | [] => if ip.isEmpty then none else some (digitsVal ip : ℚ)
  | '.' :: fp =>
    if fp.all Char.isDigit ∧ ¬(ip.isEmpty ∧ fp.isEmpty) then
      some ((digitsVal ip : ℚ) + (digitsVal fp : ℚ) / 10 ^ fp.length)
    else none
  | _ => none

def parseGoFloatL (l : List Char) : Option ℚ :=
  match l with
  | [] => none
  | c :: r =>
    if c = '+' then parseGoFloatCore r
    else if c = '-' then (parseGoFloatCore r).map Neg.neg
    else parseGoFloatCore (c :: r)

def parseGoFloat (s : String) : Option ℚ := parseGoFloatL s.data

/-- Truncation toward zero, modelling Go's float-to-integer conversion for
values representable in the target type.  Conversions of negative values to
`uint64` are implementation-specific in Go and never arise at the modelled
call sites; they are mapped to `0` here. -/
def ratTruncToNat (q : ℚ) : ℕ := (q.num.tdiv q.den).toNat

/-! ## Data sizes (`github.com/c2h5oh/datasize`: binary units) -/

def dsKB : ℚ := 1024
def dsMB : ℚ := 1024 ^ 2
def dsGB : ℚ := 1024 ^ 3
def dsTB : ℚ := 1024 ^ 4
def dsPB : ℚ := 1024 ^ 5
def dsEB : ℚ := 1024 ^ 6

/-- Model of `stringToDatasize` (`Torrent.go` lines 1087-1117): split on a
space; a single token yields 0; otherwise strip all `.` from the first
token, turn the first `,` into `.`, parse as float (0.0 on error), scale by
the unit named by the second token (unscaled truncation for an unknown
unit), and truncate to `uint64`. -/
def stringToDatasize (str : String) : ℕ :=
  let temp := goSplit ' ' str
  if temp.length = 1 then 0
  else
    let t0 := goReplaceFirstL (goReplaceAllL (temp.headD []) ['.'] []) [','] ['.']
    let temp2 : ℚ := (parseGoFloatL t0).getD 0
    match String.mk (temp.getD 1 []) with
    | "KB" => ratTruncToNat (temp2 * dsKB)
    | "MB" => ratTruncToNat (temp2 * dsMB)
    | "GB" => ratTruncToNat (temp2 * dsGB)
    | "TB" => ratTruncToNat (temp2 * dsTB)
    | "PB" => ratTruncToNat (temp2 * dsPB)
    | "EB" => ratTruncToNat (temp2 * dsEB)
    | _ => ratTruncToNat temp2

/-- Model of the size-column conversion of `parseTorrentEntry`
(`Torrent.go` lines 462-494): locate the first `,`, `ParseInt` the part
before it and the two characters after it, combine to `size*100+size2`,
divide by 100, scale by the unit suffix that starts right after the two
decimal digits (no scaling for an unrecognised suffix), truncate to
`uint64`.  A missing comma or a string too short for the two-digit slice
makes the Go code panic on an out-of-range slice, and a failed `ParseInt`
makes it return an error; all three are modelled as `none`. -/
def parseTorrentEntrySize (rawSize : String) : Option ℕ :=
  let l := rawSize.data
  match idxOfCharL ',' l with
  | none => none
  | some ci =>
    if l.length < ci + 3 then none
    else
      match parseIntBits 32 (l.take ci), parseIntBits 32 ((l.drop (ci + 1)).take 2) with
      | some size, some size2 =>
        let size := size * 100 + size2
        let realsize : ℚ := (size : ℚ) / 100
        let realsize : ℚ :=
          match String.mk (l.drop (ci + 3)) with
          | "KB" => realsize * dsKB
          | "MB" => realsize * dsMB
          | "GB" => realsize * dsGB
          | "TB" => realsize * dsTB
          | "PB" => realsize * dsPB
          | "EB" => realsize * dsEB
          | _ => realsize
        some (ratTruncToNat realsize)
      | _, _ => none

/-! ## A small backtracking regular-expression engine

The source relies on Go's `regexp` package with a fixed set of concrete
patterns.  We model exactly the constructs those patterns use: literal
characters, the character classes below, concatenation, alternation,
greedy/lazy repetition, optionality and numbered capture groups, with
Go's leftmost-first (Perl-style) match and capture semantics. -/

/-- Character classes appearing in the source's patterns.  `any` is `.`,
which in Go does not match a newline. -/
inductive CC where
  | any
  | digit
  | alpha
  | hexDigit
  | digitColon
  | notQuote
  | notGt
  | notSpace
deriving DecidableEq

def CC.test : CC → Char → Bool
  | .any, c => c ≠ '\n'
  | .digit, c => c.isDigit
  | .alpha, c => ('a' ≤ c ∧ c ≤ 'z') ∨ ('A' ≤ c ∧ c ≤ 'Z')
  | .hexDigit, c => c.isDigit ∨ ('a' ≤ c ∧ c ≤ 'f') ∨ ('A' ≤ c ∧ c ≤ 'F')
  | .digitColon, c => c.isDigit ∨ c = ':'
  | .notQuote, c => c ≠ '"'
  | .notGt, c => c ≠ '>'
  | .notSpace, c => c ≠ ' '

inductive Re where
  | eps
  | ch (c : Char)
  | cls (k : CC)
  | seq (a b : Re)
  | alt (a b : Re)
  | star (lazy : Bool) (r : Re)
  | group (n : ℕ) (r : Re)
deriving DecidableEq

/-- Capture environment: later entries for the same group shadow earlier
ones, which matches Go's last-iteration-wins capture semantics. -/
abbrev RCaps := List (ℕ × List Char)

def capGet (caps : RCaps) (n : ℕ) : List Char :=
  match caps.find? (fun p => p.1 = n) with
  | some p => p.2
  | none => []

/-- Backtracking matcher in continuation-passing style with leftmost-first
(alternation prefers its left branch, greedy repetition prefers to
continue, lazy repetition prefers to stop) semantics.  The fuel (decremented on
every recursive call, so the definition reduces by structural recursion)
bounds the depth of the matching call tree; the entry points pass
`(length + 2) * 512`, which is ample for every pattern of the source on
the strings reasoned about below, since all repeated sub-patterns consume
at least one character per iteration. -/
def reM : ℕ → Re → List Char → RCaps → (RCaps → List Char → Option (RCaps × List Char)) →
    Option (RCaps × List Char)
  | 0, _, _, _, _ => none
  | _ + 1, .eps, s, caps, k => k caps s
  | _ + 1, .ch c, s, caps, k =>
    match s with
    | [] => none
    | d :: rest => if d = c then k caps rest else none
  | _ + 1, .cls cl, s, caps, k =>
    match s with
    | [] => none
    | d :: rest => if cl.test d then k caps rest else none
  | fuel + 1, .seq a b, s, caps, k =>
    reM fuel a s caps (fun caps' s' => reM fuel b s' caps' k)
  | fuel + 1, .alt a b, s, caps, k =>
    (reM fuel a s caps k).orElse (fun _ => reM fuel b s caps k)
  | fuel + 1, .star lz r, s, caps, k =>
    let cont := fun caps' s' =>
      if (s' : List Char).length < s.length then reM fuel (.star lz r) s' caps' k else none
    if lz then (k caps s).orElse (fun _ => reM fuel r s caps cont)
    else (reM fuel r s caps cont).orElse (fun _ => k caps s)
  | fuel + 1, .group n r, s, caps, k =>
    reM fuel r s caps
      (fun caps' s' => k ((n, s.take (s.length - s'.length)) :: caps') s')

/-- Attempt to match `r` at the start of `s`; on success returns the
captures and the remainder after the match. -/
def reMatchAt (r : Re) (s : List Char) : Option (RCaps × List Char) :=
  reM ((s.length + 2) * 512) r s [] (fun caps rest => some (caps, rest))

/-- Leftmost search, modelling the position scan of Go's `FindStringSubmatch`
and `ReplaceAllString`: returns the unmatched part before the match, the
matched part, the captures, and the remainder. -/
def reSearchL (r : Re) : List Char → Option (List Char × List Char × RCaps × List Char)
  | [] => (reMatchAt r []).map (fun x => ([], [], x.1, x.2))
  | c :: cs =>
    match reMatchAt r (c :: cs) with
    | some (caps, rest) =>
      some ([], (c :: cs).take ((c :: cs).length - rest.length), caps, rest)
    | none => (reSearchL r cs).map (fun x => (c :: x.1, x.2.1, x.2.2.1, x.2.2.2))

/-- Replacement templates: literal runs interleaved with `$n` group
references (an unset group expands to the empty string, as in Go). -/
inductive TItem where
  | lit (s : String)
  | grp (n : ℕ)

def expandT (caps : RCaps) : List TItem → List Char
  | [] => []
  | .lit s :: t => s.data ++ expandT caps t
  | .grp n :: t => capGet caps n ++ expandT caps t

/-- Model of `Regexp.ReplaceAllString`: repeatedly replace the leftmost
match, continuing after the replaced segment (advancing one character
after an empty match, which never happens for the source's patterns). -/
def reReplaceFuel (r : Re) (tmpl : List TItem) : ℕ → List Char → List Char
  | 0, s => s
  | fuel + 1, s =>
    match reSearchL r s with
    | none => s
    | some (pre, matched, caps, rest) =>
      if matched.isEmpty then
        match rest with
        | [] => pre ++ expandT caps tmpl
        | c :: rs => pre ++ expandT caps tmpl ++ c :: reReplaceFuel r tmpl fuel rs
      else pre ++ expandT caps tmpl ++ reReplaceFuel r tmpl fuel rest

def reReplaceAll (r : Re) (tmpl : List TItem) (s : String) : String :=
  String.mk (reReplaceFuel r tmpl (s.data.length + 1) s.data)

/-- Model of `FindStringSubmatch` guarded by `MatchString`: the captures of
the leftmost match, if any. -/
def reFindCaps (r : Re) (s : String) : Option RCaps :=
  (reSearchL r s.data).map (fun x => x.2.2.1)

/-- Model of `FindAllStringSubmatch(s, -1)`: captures of all successive
non-overlapping leftmost matches. -/
def reFindAllFuel (r : Re) : ℕ → List Char → List RCaps
  | 0, _ => []
  | fuel + 1, s =>
    match reSearchL r s with
    | none => []
    | some (_, matched, caps, rest) =>
      if matched.isEmpty then
        match rest with
        | [] => [caps]
        | _ :: rs => caps :: reFindAllFuel r fuel rs
      else caps :: reFindAllFuel r fuel rest

def reFindAll (r : Re) (s : String) : List RCaps :=
  reFindAllFuel r (s.data.length + 1) s.data

/-- Literal string pattern. -/
def Re.strL : List Char → Re
  | [] => .eps
  | c :: cs => .seq (.ch c) (Re.strL cs)

def Re.lit (s : String) : Re := Re.strL s.data

/-- Concatenation of a list of patterns. -/
def Re.cat (l : List Re) : Re := l.foldr Re.seq Re.eps

/-- Greedy `+`. -/
def Re.plusG (r : Re) : Re := .seq r (.star false r)

/-- Lazy `+`. -/
def Re.plusL (r : Re) : Re := .seq r (.star true r)

/-- Greedy `?` (prefers to match). -/
def Re.optG (r : Re) : Re := .alt r .eps

/-! ## The shoutbox strip pipeline (`Shoutbox.go`) -/

/-- Pattern `<center>(.+)</center>` (and the same shape for bold, italic,
underline) from `shoutboxRegexpInit`, `Shoutbox.go` lines 255-258. -/
def wrapperRe (tag : String) : Re :=
  Re.cat [Re.lit ("<" ++ tag ++ ">"), .group 1 (Re.plusG (.cls .any)),
    Re.lit ("</" ++ tag ++ ">")]

/-- Pattern `<img.*?src="(/pic/smilies/([^"]+))"[^>]*>`, line 260. -/
def emojiRe : Re :=
  Re.cat [Re.lit "<img", .star true (.cls .any), Re.lit "src=\"",
    .group 1 (Re.cat [Re.lit "/pic/smilies/", .group 2 (Re.plusG (.cls .notQuote))]),
    .ch '"', .star false (.cls .notGt), .ch '>']

/-- Pattern `<img src="([^"]+)" alt="" border="0">`, line 259. -/
def imgRe : Re :=
  Re.cat [Re.lit "<img src=\"", .group 1 (Re.plusG (.cls .notQuote)),
    Re.lit "\" alt=\"\" border=\"0\">"]

/-- Pattern `<img border="0" src="([^"]+)" alt="">`, line 261. -/
def img3Re : Re :=
  Re.cat [Re.lit "<img border=\"0\" src=\"", .group 1 (Re.plusG (.cls .notQuote)),
    Re.lit "\" alt=\"\">"]

/-- Pattern `<font color="?([a-zA-Z]+|#[0-9a-fA-F]+)"?>(.+?)</font>`, line 262. -/
def colorRe : Re :=
  Re.cat [Re.lit "<font color=", Re.optG (.ch '"'),
    .group 1 (.alt (Re.plusG (.cls .alpha)) (.seq (.ch '#') (Re.plusG (.cls .hexDigit)))),
    Re.optG (.ch '"'), .ch '>', .group 2 (Re.plusL (.cls .any)), Re.lit "</font>"]

/-- Pattern `<a href="(https?://[^"]+)"(:? target="([^"]+)")?>(.+)</a>`,
line 263.  Note the source's `(:?` (an optional literal colon inside a
numbered group) where `(?:` was presumably meant; the group numbering used
by the replacement template is the one the actual pattern produces. -/
def linkRe : Re :=
  Re.cat [Re.lit "<a href=\"",
    .group 1 (Re.cat [Re.lit "http", Re.optG (.ch 's'), Re.lit "://",
      Re.plusG (.cls .notQuote)]),
    .ch '"',
    Re.optG (.group 2 (Re.cat [Re.optG (.ch ':'), Re.lit " target=\"",
      .group 3 (Re.plusG (.cls .notQuote)), .ch '"'])),
    .ch '>', .group 4 (Re.plusG (.cls .any)), Re.lit "</a>"]

/-- Pattern `<a href="(/[^"]+)"(:? target="([^"]+)")?>(.+)</a>`, line 264. -/
def link2Re : Re :=
  Re.cat [Re.lit "<a href=\"",
    .group 1 (.seq (.ch '/') (Re.plusG (.cls .notQuote))),
    .ch '"',
    Re.optG (.group 2 (Re.cat [Re.optG (.ch ':'), Re.lit " target=\"",
      .group 3 (Re.plusG (.cls .notQuote)), .ch '"'])),
    .ch '>', .group 4 (Re.plusG (.cls .any)), Re.lit "</a>"]

/-- Pattern `<font size="?(\d+)"?>(.+)</font>`, line 265. -/
def sizeRe : Re :=
  Re.cat [Re.lit "<font size=", Re.optG (.ch '"'), .group 1 (Re.plusG (.cls .digit)),
    Re.optG (.ch '"'), .ch '>', .group 2 (Re.plusG (.cls .any)), Re.lit "</font>"]

/-- Pattern `<font face="([^"]+)">(.+)</font>`, line 266. -/
def fontRe : Re :=
  Re.cat [Re.lit "<font face=\"", .group 1 (Re.plusG (.cls .notQuote)),
    Re.lit "\">", .group 2 (Re.plusG (.cls .any)), Re.lit "</font>"]

/-- Pattern for the `nfo` entry, line 267. -/
def nfoRe : Re :=
  Re.cat [Re.lit "<tt><nobr><font face=\"MS Linedraw\" size=\"2\" style=\"font-size: 10pt; line-height: 10pt\">",
    .group 1 (Re.plusG (.cls .any)), Re.lit "</font></nobr></tt>"]

/-- Pattern `<tt><nobr>(.+)</nobr></tt>`, line 268. -/
def preRe : Re :=
  Re.cat [Re.lit "<tt><nobr>", .group 1 (Re.plusG (.cls .any)), Re.lit "</nobr></tt>"]

/-- Pattern `hxxp(s)?://([^ ]+)`, line 269. -/
def hxxpRe : Re :=
  Re.cat [Re.lit "hxxp", Re.optG (.group 1 (.ch 's')), Re.lit "://",
    .group 2 (Re.plusG (.cls .notSpace))]

/-- Emoji table assignments of `emojiInit` (`Shoutbox.go` lines 281-518), in
source order; repeated keys overwrite earlier values exactly as the Go map
assignments do. -/
def emojiAssignments : List (String × ℕ) := [
  ("smile1.gif", 0x1F600),
  ("zwinkern.gif", 0x1F609),
  ("bf.gif", 0x1F44C),
  ("bw.gif", 0x1F914),
  ("sick.gif", 0x1F92E),
  ("smartass.gif", 0x1F44B),
  ("thx.gif", 0x1F44D),
  ("thumbsup.gif", 0x1F44E),
  ("thumbsup.gif", 0x1F44E),
  ("weep.gif", 0x1F622),
  ("tease.gif", 0x1F61B),
  ("grin.gif", 0x1F603),
  ("dp.gif", 0x1F92A),
  ("cry.gif", 0x1F62D),
  ("fein.gif", 0x1F606),
  ("dance3.gif", 0x1F483),
  ("vogelzeig.gif", 0x1F926),
  ("blush.gif", 0x1F605),
  ("jippie.gif", 0xFFFD),
  ("abgelehnt.gif", 0xFFFD),
  ("abinsbett.gif", 0xFFFD),
  ("achlass.gif", 0xFFFD),
  ("afk.gif", 0xFFFD),
  ("augen.GIF", 0xFFFD),
  ("bad.gif", 0xFFFD),
  ("baehh.gif", 0xFFFD),
  ("baehh.gif", 0xFFFD),
  ("bahnhof.gif", 0xFFFD),
  ("banane.gif", 0xFFFD),
  ("binwech.gif", 0xFFFD),
  ("welcome.gif", 0xFFFD),
  ("brille.GIF", 0xFFFD),
  ("ciao.gif", 0xFFFD),
  ("cool.gif", 0xFFFD),
  ("pro.gif", 0xFFFD),
  ("pro.gif", 0xFFFD),
  ("contra.gif", 0xFFFD),
  ("dance.gif", 0xFFFD),
  ("dance2.gif", 0xFFFD),
  ("danke.gif", 0xFFFD),
  ("denken.gif", 0xFFFD),
  ("desnemma.gif", 0xFFFD),
  ("dudu.gif", 0xFFFD),
  ("er.gif", 0xFFFD),
  ("essen.gif", 0xFFFD),
  ("flieg.gif", 0xFFFD),
  ("whistle.gif", 0xFFFD),
  ("whistle.gif", 0xFFFD),
  ("fluestern.gif", 0xFFFD),
  ("fluestern.gif", 0xFFFD),
  ("freu.gif", 0xFFFD),
  ("freu2.gif", 0xFFFD),
  ("hupps.gif", 0xFFFD),
  ("ck.gif", 0xFFFD),
  ("gespraech.gif", 0xFFFD),
  ("gespraech.gif", 0xFFFD),
  ("girlsfriends.gif", 0xFFFD),
  ("gutenacht.GIF", 0xFFFD),
  ("habenwill.gif", 0xFFFD),
  ("hallo.gif", 0xFFFD),
  ("hallo2.gif", 0xFFFD),
  ("hallo3.gif", 0xFFFD),
  ("heul.gif", 0xFFFD),
  ("hi.gif", 0xFFFD),
  ("hi5.gif", 0xFFFD),
  ("hihi.gif", 0xFFFD),
  ("hmmm.GIF", 0xFFFD),
  ("hops.gif", 0xFFFD),
  ("huebsch.gif", 0xFFFD),
  ("huebsch.gif", 0xFFFD),
  ("huhuh.gif", 0xFFFD),
  ("huhu.gif", 0xFFFD),
  ("huldig.gif", 0xFFFD),
  ("kotz.gif", 0xFFFD),
  ("huepf.gif", 0xFFFD),
  ("huepf.gif", 0xFFFD),
  ("ich.gif", 0xFFFD),
  ("ich neee.gif", 0xFFFD),
  ("ichwarsnet.gif", 0xFFFD),
  ("jaa.gif", 0xFFFD),
  ("jippi.gif", 0xFFFD),
  ("kaffee.gif", 0xFFFD),
  ("klaps.gif", 0xFFFD),
  ("klatschen1.gif", 0xFFFD),
  ("kukuck.gif", 0xFFFD),
  ("kizz.gif", 0xFFFD),
  ("kuss.gif", 0xFFFD),
  ("langweil.gif", 0xFFFD),
  ("lieb.gif", 0xFFFD),
  ("lieb2.gif", 0xFFFD),
  ("lol.gif", 0xFFFD),
  ("lol2.gif", 0xFFFD),
  ("lol3.gif", 0xFFFD),
  ("lol4.gif", 0xFFFD),
  ("lol.gif", 0xFFFD),
  ("maus.gif", 0xFFFD),
  ("merci.gif", 0xFFFD),
  ("mist.gif", 0xFFFD),
  ("moin.gif", 0xFFFD),
  ("na.gif", 0xFFFD),
  ("nachti.gif", 0xFFFD),
  ("necken.gif", 0xFFFD),
  ("necken2.gif", 0xFFFD),
  ("nimmdas.gif", 0xFFFD),
  ("nimmdas2.gif", 0xFFFD),
  ("no.gif", 0xFFFD),
  ("nochda.gif", 0xFFFD),
  ("ohnein.gif", 0xFFFD),
  ("ok.gif", 0xFFFD),
  ("oops.GIF", 0xFFFD),
  ("plem.gif", 0xFFFD),
  ("plot.gif", 0xFFFD),
  ("pn.gif", 0xFFFD),
  ("pssst.GIF", 0xFFFD),
  ("psst.gif", 0xFFFD),
  ("puh.gif", 0xFFFD),
  ("reingefallen.gif", 0xFFFD),
  ("rose.gif", 0xFFFD),
  ("rotwerd.gif", 0xFFFD),
  ("ruf.gif", 0xFFFD),
  ("schimpfen.gif", 0xFFFD),
  ("schleimer.gif", 0xFFFD),
  ("schmoll.gif", 0xFFFD),
  ("schoki.gif", 0xFFFD),
  ("shifty.gif", 0xFFFD),
  ("sie.gif", 0xFFFD),
  ("siez.gif", 0xFFFD),
  ("smoke.gif", 0xFFFD),
  ("sorry.GIF", 0xFFFD),
  ("spitze.GIF", 0xFFFD),
  ("strike.gif", 0xFFFD),
  ("strip.gif", 0xFFFD),
  ("tel.gif", 0xFFFD),
  ("totlach.gif", 0xFFFD),
  ("totlach2.gif", 0xFFFD),
  ("troesten.gif", 0xFFFD),
  ("versteck.gif", 0xFFFD),
  ("wanne.gif", 0xFFFD),
  ("warichnet.gif", 0xFFFD),
  ("watt.gif", 0xFFFD),
  ("weissnet.gif", 0xFFFD),
  ("wiegeil.gif", 0xFFFD),
  ("willich.gif", 0xFFFD),
  ("willich2.gif", 0xFFFD),
  ("wink.gif", 0xFFFD),
  ("wink2.gif", 0xFFFD),
  ("wave.gif", 0xFFFD),
  ("wave2.gif", 0xFFFD),
  ("zocken.gif", 0xFFFD),
  ("zug.gif", 0xFFFD),
  ("zunge1.GIF", 0xFFFD),
  ("zunge2.gif", 0xFFFD),
  ("zunge3.gif", 0xFFFD),
  ("zungeziehn.gif", 0xFFFD),
  ("zwinker.gif", 0xFFFD),
  ("aa.gif", 0xFFFD),
  ("ahh.gif", 0xFFFD),
  ("angry.gif", 0xFFFD),
  ("angel.gif", 0xFFFD),
  ("ar.gif", 0xFFFD),
  ("as.gif", 0xFFFD),
  ("av.gif", 0xFFFD),
  ("baby.gif", 0xFFFD),
  ("bd.gif", 0xFFFD),
  ("bike.gif", 0xFFFD),
  ("bo.gif", 0xFFFD),
  ("brumm.gif", 0xFFFD),
  ("bu.gif", 0xFFFD),
  ("bz.gif", 0xFFFD),
  ("chicken.gif", 0xFFFD),
  ("ck.gif", 0xFFFD),
  ("closedeyes.gif", 0xFFFD),
  ("cm.gif", 0xFFFD),
  ("cp.gif", 0xFFFD),
  ("dance4.gif", 0xFFFD),
  ("devil.gif", 0xFFFD),
  ("drunk.gif", 0xFFFD),
  ("Ele.gif", 0xFFFD),
  ("fan.gif", 0xFFFD),
  ("besen.gif", 0xFFFD),
  ("zwerge.gif", 0xFFFD),
  ("hello.gif", 0xFFFD),
  ("geek.gif", 0xFFFD),
  ("friends.gif", 0xFFFD),
  ("fun.gif", 0xFFFD),
  ("give_rose.gif", 0xFFFD),
  ("greeting.gif", 0xFFFD),
  ("hmmm.gif", 0xFFFD),
  ("icecream.gif", 0xFFFD),
  ("kiss.gif", 0xFFFD),
  ("kissing2.gif", 0xFFFD),
  ("love.gif", 0xFFFD),
  ("morgen.gif", 0xFFFD),
  ("morning1.gif", 0xFFFD),
  ("nacht.gif", 0xFFFD),
  ("noexpression.gif", 0xFFFD),
  ("ohmy.gif", 0xFFFD),
  ("plane.gif", 0xFFFD),
  ("read.gif", 0xFFFD),
  ("rofl.gif", 0xFFFD),
  ("skate.gif", 0xFFFD),
  ("kasper.gif", 0xFFFD),
  ("smile1.gif", 0xFFFD),
  ("spam.gif", 0xFFFD),
  ("super.gif", 0xFFFD),
  ("thank you.gif", 0xFFFD),
  ("tongue.gif", 0xFFFD),
  ("wizard.gif", 0xFFFD),
  ("wo.gif", 0xFFFD),
  ("yes.gif", 0xFFFD),
  ("FAQ.gif", 0xFFFD),
  ("bye2.gif", 0xFFFD),
  ("sorry.gif", 0xFFFD),
  ("klopp.gif", 0xFFFD),
  ("pup.gif", 0xFFFD),
  ("welle.gif", 0xFFFD),
  ("smile1.gif", 0xFFFD),
  ("grin.gif", 0xFFFD),
  ("tongue.gif", 0xFFFD),
  ("sad.gif", 0xFFFD),
  ("cry.gif", 0xFFFD),
  ("noexpression.gif", 0xFFFD),
  ("bbfriends.gif", 0xFFFD),
  ("bbwink.gif", 0xFFFD),
  ("bbgrin.gif", 0xFFFD),
  ("bbhat-sm.gif", 0xFFFD),
  ("bbhat.gif", 0xFFFD),
  ("lol5.gif", 0xFFFD),
  ("deadhorse.gif", 0xFFFD),
  ("spank.gif", 0xFFFD),
  ("yoji.gif", 0xFFFD),
  ("locked.gif", 0xFFFD),
  ("clown.gif", 0xFFFD),
  ("mml.gif", 0xFFFD),
  ("morepics.gif", 0xFFFD),
  ("rblocked.gif", 0xFFFD),
  ("maxlocked.gif", 0xFFFD),
  ("hslocked.gif", 0xFFFD)]

/-- Assoc-list update with Go map semantics: overwrite the value of an
existing key in place, append a new key at the end. -/
def mapSet {κ α : Type} [DecidableEq κ] : List (κ × α) → κ → α → List (κ × α)
  | [], k, v => [(k, v)]
  | q :: t, k, v => if q.1 = k then (k, v) :: t else q :: mapSet t k v

/-- Lookup in the assoc-list map. -/
def mapGet {κ α : Type} [DecidableEq κ] (m : List (κ × α)) (k : κ) : Option α :=
  (m.find? (fun p => p.1 = k)).map Prod.snd

/-- The emoji map after `emojiInit` has run, given as an explicit list
literal for evaluation speed; `emojis_spec` proves it equal to the fold of
the source's assignment sequence with Go map-assignment semantics. -/
def emojis : List (String × ℕ) := [
  ("smile1.gif", 0xFFFD),
  ("zwinkern.gif", 0x1F609),
  ("bf.gif", 0x1F44C),
  ("bw.gif", 0x1F914),
  ("sick.gif", 0x1F92E),
  ("smartass.gif", 0x1F44B),
  ("thx.gif", 0x1F44D),
  ("thumbsup.gif", 0x1F44E),
  ("weep.gif", 0x1F622),
  ("tease.gif", 0x1F61B),
  ("grin.gif", 0xFFFD),
  ("dp.gif", 0x1F92A),
  ("cry.gif", 0xFFFD),
  ("fein.gif", 0x1F606),
  ("dance3.gif", 0x1F483),
  ("vogelzeig.gif", 0x1F926),
  ("blush.gif", 0x1F605),
  ("jippie.gif", 0xFFFD),
  ("abgelehnt.gif", 0xFFFD),
  ("abinsbett.gif", 0xFFFD),
  ("achlass.gif", 0xFFFD),
  ("afk.gif", 0xFFFD),
  ("augen.GIF", 0xFFFD),
  ("bad.gif", 0xFFFD),
  ("baehh.gif", 0xFFFD),
  ("bahnhof.gif", 0xFFFD),
  ("banane.gif", 0xFFFD),
  ("binwech.gif", 0xFFFD),
  ("welcome.gif", 0xFFFD),
  ("brille.GIF", 0xFFFD),
  ("ciao.gif", 0xFFFD),
  ("cool.gif", 0xFFFD),
  ("pro.gif", 0xFFFD),
  ("contra.gif", 0xFFFD),
  ("dance.gif", 0xFFFD),
  ("dance2.gif", 0xFFFD),
  ("danke.gif", 0xFFFD),
  ("denken.gif", 0xFFFD),
  ("desnemma.gif", 0xFFFD),
  ("dudu.gif", 0xFFFD),
  ("er.gif", 0xFFFD),
  ("essen.gif", 0xFFFD),
  ("flieg.gif", 0xFFFD),
  ("whistle.gif", 0xFFFD),
  ("fluestern.gif", 0xFFFD),
  ("freu.gif", 0xFFFD),
  ("freu2.gif", 0xFFFD),
  ("hupps.gif", 0xFFFD),
  ("ck.gif", 0xFFFD),
  ("gespraech.gif", 0xFFFD),
  ("girlsfriends.gif", 0xFFFD),
  ("gutenacht.GIF", 0xFFFD),
  ("habenwill.gif", 0xFFFD),
  ("hallo.gif", 0xFFFD),
  ("hallo2.gif", 0xFFFD),
  ("hallo3.gif", 0xFFFD),
  ("heul.gif", 0xFFFD),
  ("hi.gif", 0xFFFD),
  ("hi5.gif", 0xFFFD),
  ("hihi.gif", 0xFFFD),
  ("hmmm.GIF", 0xFFFD),
  ("hops.gif", 0xFFFD),
  ("huebsch.gif", 0xFFFD),
  ("huhuh.gif", 0xFFFD),
  ("huhu.gif", 0xFFFD),
  ("huldig.gif", 0xFFFD),
  ("kotz.gif", 0xFFFD),
  ("huepf.gif", 0xFFFD),
  ("ich.gif", 0xFFFD),
  ("ich neee.gif", 0xFFFD),
  ("ichwarsnet.gif", 0xFFFD),
  ("jaa.gif", 0xFFFD),
  ("jippi.gif", 0xFFFD),
  ("kaffee.gif", 0xFFFD),
  ("klaps.gif", 0xFFFD),
  ("klatschen1.gif", 0xFFFD),
  ("kukuck.gif", 0xFFFD),
  ("kizz.gif", 0xFFFD),
  ("kuss.gif", 0xFFFD),
  ("langweil.gif", 0xFFFD),
  ("lieb.gif", 0xFFFD),
  ("lieb2.gif", 0xFFFD),
  ("lol.gif", 0xFFFD),
  ("lol2.gif", 0xFFFD),
  ("lol3.gif", 0xFFFD),
  ("lol4.gif", 0xFFFD),
  ("maus.gif", 0xFFFD),
  ("merci.gif", 0xFFFD),
  ("mist.gif", 0xFFFD),
  ("moin.gif", 0xFFFD),
  ("na.gif", 0xFFFD),
  ("nachti.gif", 0xFFFD),
  ("necken.gif", 0xFFFD),
  ("necken2.gif", 0xFFFD),
  ("nimmdas.gif", 0xFFFD),
  ("nimmdas2.gif", 0xFFFD),
  ("no.gif", 0xFFFD),
  ("nochda.gif", 0xFFFD),
  ("ohnein.gif", 0xFFFD),
  ("ok.gif", 0xFFFD),
  ("oops.GIF", 0xFFFD),
  ("plem.gif", 0xFFFD),
  ("plot.gif", 0xFFFD),
  ("pn.gif", 0xFFFD),
  ("pssst.GIF", 0xFFFD),
  ("psst.gif", 0xFFFD),
  ("puh.gif", 0xFFFD),
  ("reingefallen.gif", 0xFFFD),
  ("rose.gif", 0xFFFD),
  ("rotwerd.gif", 0xFFFD),
  ("ruf.gif", 0xFFFD),
  ("schimpfen.gif", 0xFFFD),
  ("schleimer.gif", 0xFFFD),
  ("schmoll.gif", 0xFFFD),
  ("schoki.gif", 0xFFFD),
  ("shifty.gif", 0xFFFD),
  ("sie.gif", 0xFFFD),
  ("siez.gif", 0xFFFD),
  ("smoke.gif", 0xFFFD),
  ("sorry.GIF", 0xFFFD),
  ("spitze.GIF", 0xFFFD),
  ("strike.gif", 0xFFFD),
  ("strip.gif", 0xFFFD),
  ("tel.gif", 0xFFFD),
  ("totlach.gif", 0xFFFD),
  ("totlach2.gif", 0xFFFD),
  ("troesten.gif", 0xFFFD),
  ("versteck.gif", 0xFFFD),
  ("wanne.gif", 0xFFFD),
  ("warichnet.gif", 0xFFFD),
  ("watt.gif", 0xFFFD),
  ("weissnet.gif", 0xFFFD),
  ("wiegeil.gif", 0xFFFD),
  ("willich.gif", 0xFFFD),
  ("willich2.gif", 0xFFFD),
  ("wink.gif", 0xFFFD),
  ("wink2.gif", 0xFFFD),
  ("wave.gif", 0xFFFD),
  ("wave2.gif", 0xFFFD),
  ("zocken.gif", 0xFFFD),
  ("zug.gif", 0xFFFD),
  ("zunge1.GIF", 0xFFFD),
  ("zunge2.gif", 0xFFFD),
  ("zunge3.gif", 0xFFFD),
  ("zungeziehn.gif", 0xFFFD),
  ("zwinker.gif", 0xFFFD),
  ("aa.gif", 0xFFFD),
  ("ahh.gif", 0xFFFD),
  ("angry.gif", 0xFFFD),
  ("angel.gif", 0xFFFD),
  ("ar.gif", 0xFFFD),
  ("as.gif", 0xFFFD),
  ("av.gif", 0xFFFD),
  ("baby.gif", 0xFFFD),
  ("bd.gif", 0xFFFD),
  ("bike.gif", 0xFFFD),
  ("bo.gif", 0xFFFD),
  ("brumm.gif", 0xFFFD),
  ("bu.gif", 0xFFFD),
  ("bz.gif", 0xFFFD),
  ("chicken.gif", 0xFFFD),
  ("closedeyes.gif", 0xFFFD),
  ("cm.gif", 0xFFFD),
  ("cp.gif", 0xFFFD),
  ("dance4.gif", 0xFFFD),
  ("devil.gif", 0xFFFD),
  ("drunk.gif", 0xFFFD),
  ("Ele.gif", 0xFFFD),
  ("fan.gif", 0xFFFD),
  ("besen.gif", 0xFFFD),
  ("zwerge.gif", 0xFFFD),
  ("hello.gif", 0xFFFD),
  ("geek.gif", 0xFFFD),
  ("friends.gif", 0xFFFD),
  ("fun.gif", 0xFFFD),
  ("give_rose.gif", 0xFFFD),
  ("greeting.gif", 0xFFFD),
  ("hmmm.gif", 0xFFFD),
  ("icecream.gif", 0xFFFD),
  ("kiss.gif", 0xFFFD),
  ("kissing2.gif", 0xFFFD),
  ("love.gif", 0xFFFD),
  ("morgen.gif", 0xFFFD),
  ("morning1.gif", 0xFFFD),
  ("nacht.gif", 0xFFFD),
  ("noexpression.gif", 0xFFFD),
  ("ohmy.gif", 0xFFFD),
  ("plane.gif", 0xFFFD),
  ("read.gif", 0xFFFD),
  ("rofl.gif", 0xFFFD),
  ("skate.gif", 0xFFFD),
  ("kasper.gif", 0xFFFD),
  ("spam.gif", 0xFFFD),
  ("super.gif", 0xFFFD),
  ("thank you.gif", 0xFFFD),
  ("tongue.gif", 0xFFFD),
  ("wizard.gif", 0xFFFD),
  ("wo.gif", 0xFFFD),
  ("yes.gif", 0xFFFD),
  ("FAQ.gif", 0xFFFD),
  ("bye2.gif", 0xFFFD),
  ("sorry.gif", 0xFFFD),
  ("klopp.gif", 0xFFFD),
  ("pup.gif", 0xFFFD),
  ("welle.gif", 0xFFFD),
  ("sad.gif", 0xFFFD),
  ("bbfriends.gif", 0xFFFD),
  ("bbwink.gif", 0xFFFD),
  ("bbgrin.gif", 0xFFFD),
  ("bbhat-sm.gif", 0xFFFD),
  ("bbhat.gif", 0xFFFD),
  ("lol5.gif", 0xFFFD),
  ("deadhorse.gif", 0xFFFD),
  ("spank.gif", 0xFFFD),
  ("yoji.gif", 0xFFFD),
  ("locked.gif", 0xFFFD),
  ("clown.gif", 0xFFFD),
  ("mml.gif", 0xFFFD),
  ("morepics.gif", 0xFFFD),
  ("rblocked.gif", 0xFFFD),
  ("maxlocked.gif", 0xFFFD),
  ("hslocked.gif", 0xFFFD)]

/-- Proof that the literal above is exactly the fold of the source's
assignment sequence (`emojiInit`) under Go map-assignment semantics.
Go's map iteration order is unspecified; the model iterates in
(deduplicated) insertion order, one of the admissible orders, and none of
the replacements performed by `emojify` overlap for the inputs reasoned
about below. -/
theorem emojis_spec :
    emojis = emojiAssignments.foldl (fun m p => mapSet m p.1 p.2) [] := by decide

/-- Model of `emojify` (`Shoutbox.go` lines 521-531): replace every
occurrence of `emoji:<image>` by the mapped code point, for every table
entry. -/
def emojify (s : String) : String :=
  emojis.foldl (fun s p => goReplaceAll s ("emoji:" ++ p.1) (String.mk [Char.ofNat p.2])) s

/-- Subset model of Go's `html.UnescapeString` covering the five basic
entities; the pipeline's outputs reasoned about below contain no entities,
for which `UnescapeString` is the identity. -/
def htmlUnescape (s : String) : String :=
  let s := goReplaceAll s "&lt;" "<"
  let s := goReplaceAll s "&gt;" ">"
  let s := goReplaceAll s "&quot;" "\""
  let s := goReplaceAll s "&#39;" "'"
  goReplaceAll s "&amp;" "&"

/-- Model of `ShoutboxStrip` (`Shoutbox.go` lines 173-205): the fixed,
ordered sequence of regexp replacements, the literal `<br>`/`&nbsp;`
replacements, `emojify`, and entity unescaping. -/
def ShoutboxStrip (msg url : String) : String :=
  let stripped := reReplaceAll (wrapperRe "center") [.grp 1] msg
  let stripped := reReplaceAll (wrapperRe "b") [.grp 1] stripped
  let stripped := reReplaceAll (wrapperRe "i") [.grp 1] stripped
  let stripped := reReplaceAll (wrapperRe "u") [.grp 1] stripped
  let stripped := reReplaceAll emojiRe [.lit "emoji:", .grp 2] stripped
  let stripped := reReplaceAll imgRe [.grp 1] stripped
  let stripped := reReplaceAll img3Re [.grp 1] stripped
  let stripped := reReplaceAll colorRe [.grp 2] stripped
  let stripped := reReplaceAll linkRe [.grp 4, .lit " [", .grp 1, .lit "]"] stripped
  let stripped := reReplaceAll link2Re [.grp 4, .lit " [", .lit url, .grp 1, .lit "]"] stripped
  let stripped := reReplaceAll sizeRe [.grp 2] stripped
  let stripped := reReplaceAll fontRe [.grp 2] stripped
  let stripped := reReplaceAll nfoRe [.grp 1] stripped
  let stripped := reReplaceAll preRe [.grp 1] stripped
  let stripped := reReplaceAll hxxpRe [.lit "http", .grp 1, .lit "://", .grp 2] stripped
  let stripped := goReplaceAll stripped "<br>\n" "\n"
  let stripped := goReplaceAll stripped "<br>" ""
  let stripped := goReplaceAll stripped "<br/>\n" "\n"
  let stripped := goReplaceAll stripped "<br/>" ""
  let stripped := goReplaceAll stripped "&nbsp;" " "
  let stripped := emojify stripped
  htmlUnescape stripped

/-! ## Typed records (`Torrent.go` lines 60-113) -/

/-- Simple calendar timestamp model for the parsed Go `time.Time` values;
`none` models the zero time / epoch-zero sentinel the source falls back
to.  (No claim depends on calendar arithmetic.) -/
structure GoDate where
  year : ℕ
  month : ℕ
  day : ℕ
  hour : ℕ
  minute : ℕ
  second : ℕ
deriving DecidableEq, Repr

structure TorrentEntry where
  Id : ℤ
  Name : String
  Category : ℤ
  Added : Option GoDate
  Size : ℕ
  Description : String
  InfoHash : String
  FileCount : ℤ
  SeederCount : ℤ
  LeecherCount : ℤ
  SnatchCount : ℤ
  CommentCount : ℤ
  Uploader : String
deriving DecidableEq, Repr

structure Peer where
  Name : String
  Connectable : Bool
  Seeder : Bool
  Uploaded : ℕ
  Downloaded : ℕ
  Ulrate : ℕ
  Dlrate : ℕ
  Ratio : ℚ
  Completed : ℚ
  Connected : ℕ
  Idle : ℕ
  Client : String
deriving DecidableEq, Repr

structure Snatch where
  Name : String
  Uploaded : ℕ
  Downloaded : ℕ
  Ratio : ℚ
  Completed : Option GoDate
  Stopped : Option GoDate
  Seeding : Bool
deriving DecidableEq, Repr

/-! ## Ratio fields (`Torrent.go` lines 853-864 and 1020-1032) -/

/-- Ratio interpretation of `parsePeerList`: the three-way check is made on
the cell text, and the numeric parse reads the `font` child's text
(`td.Find("font").Text()`), defaulting to `0.0` on a parse error. -/
def peerRatio (tdText fontText : String) : ℚ :=
  if tdText = "Inf." then -1
  else if tdText = "---" then 0
  else (parseGoFloat fontText).getD 0

/-- Ratio interpretation of `parseSnatches`, applied to the bold text after
`strings.TrimPrefix(t, "Torrent: ")`. -/
def snatchRatio (t : String) : ℚ :=
  if t = "Inf." then -1
  else if t = "---" then 0
  else (parseGoFloat t).getD 0

/-! ## Connected-duration computation (`Torrent.go` lines 815, 882-906) -/

/-- Pattern `(:?(\d+)d )?([0-9:]+)` compiled at `Torrent.go` line 815.
Note the source's `(:?` — an optional literal colon inside capture group 1
— where `(?:` was presumably intended, so group 1 is the whole `2d `
segment, group 2 is the day digits and group 3 is the `HH:MM:SS` part. -/
def durationRe : Re :=
  Re.cat [Re.optG (.group 1 (Re.cat [Re.optG (.ch ':'),
    .group 2 (Re.plusG (.cls .digit)), Re.lit "d "])),
    .group 3 (Re.plusG (.cls .digitColon))]

/-- Model of the seconds accumulation at `Torrent.go` lines 884-906: if the
pattern matches, `m[1]` (when non-empty) is parsed with `ParseUint` (reset
to 0 on error) and scaled by 86400, and `m[2]` (when non-empty) is split on
`:` and folded right-to-left with multiplier 1, 60, 3600, ...  The result
is stored in a local variable `connected` that the source never copies into
`peer.Connected`. -/
def computeConnected (s : String) : ℕ :=
  match reFindCaps durationRe s with
  | none => 0
  | some caps =>
    let m1 := capGet caps 1
    let m2 := capGet caps 2
    let c1 := if m1 ≠ [] then parseUintDef0 32 m1 * 86400 else 0
    let c2 :=
      if m2 ≠ [] then
        let temp := goSplitL ':' m2
        (temp.reverse.enum.map
          (fun p => parseUintDef0 32 p.2 * 60 ^ p.1)).sum
      else 0
    c1 + c2

/-! ## Peer rows (`Torrent.go` lines 817-927)

One `<tr>` of a peer table is modelled by the cell texts the source
extracts from it via goquery; `parsePeerRow` is the body of the `Each`
closure of `parsePeerList`. -/

structure PeerRowTexts where
  nameText : String
  connectableText : String
  uploadedText : String
  ulrateText : String
  downloadedText : String
  dlrateText : String
  ratioTdText : String
  ratioFontText : String
  completedTitle : Option String
  connectedText : String
  clientText : String

/-- Model of one iteration of the `parsePeerList` row loop.  The source
computes the connected seconds into a local variable (see
`computeConnected`) but never assigns any `peer.Connected`, so the field
keeps its zero initialisation; the dead computation is kept here to mirror
the source. -/
def parsePeerRow (r : PeerRowTexts) : Peer :=
  let completedPair : ℚ × Bool :=
    match r.completedTitle with
    | some val =>
      let val := goReplaceFirst (goReplaceFirst val "%" "") "%" ""
      let temp := (parseGoFloat val).getD 0
      (temp, (temp.num.tdiv temp.den) = 100)
    | none => (0, false)
  let _connected := computeConnected r.connectedText
  { Name := r.nameText
    Connectable := r.connectableText = "Ja"
    Seeder := completedPair.2
    Uploaded := stringToDatasize r.uploadedText
    Ulrate := stringToDatasize (trimSuffixGo r.ulrateText "/s")
    Downloaded := stringToDatasize r.downloadedText
    Dlrate := stringToDatasize (trimSuffixGo r.dlrateText "/s")
    Ratio := peerRatio r.ratioTdText r.ratioFontText
    Completed := completedPair.1
    Connected := 0
    Idle := 0
    Client := r.clientText }

/-! ## Snatch rows (`Torrent.go` lines 985-1059) -/

/-- Exact-shape model of `time.Parse("2006-01-02 15:04:05", t)`: a fixed
19-character layout with basic range validation; `none` models a parse
error (the source falls back to the epoch-zero sentinel). -/
def parseFullDate (s : String) : Option GoDate :=
  match s.data with
  | [y1, y2, y3, y4, '-', m1, m2, '-', d1, d2, ' ', h1, h2, ':', n1, n2, ':', s1, s2] =>
    if [y1, y2, y3, y4, m1, m2, d1, d2, h1, h2, n1, n2, s1, s2].all Char.isDigit then
      let mo := digitsVal [m1, m2]
      let da := digitsVal [d1, d2]
      let ho := digitsVal [h1, h2]
      let mi := digitsVal [n1, n2]
      let se := digitsVal [s1, s2]
      if 1 ≤ mo ∧ mo ≤ 12 ∧ 1 ≤ da ∧ da ≤ 31 ∧ ho ≤ 23 ∧ mi ≤ 59 ∧ se ≤ 59 then
        some ⟨digitsVal [y1, y2, y3, y4], mo, da, ho, mi, se⟩
      else none
    else none
  | _ => none

structure SnatchRowTexts where
  nameText : String
  downloadedBoldText : String
  uploadedBoldText : String
  ratioBoldText : String
  completedBoldText : String
  stoppedFontText : String

/-- Model of one iteration of the `parseSnatches` row loop
(`Torrent.go` lines 985-1058). -/
def parseSnatchRow (r : SnatchRowTexts) : Snatch :=
  let stoppedPair : Option GoDate × Bool :=
    if r.stoppedFontText = "Seedet im Moment" then (none, true)
    else (parseFullDate r.stoppedFontText, false)
  { Name := r.nameText
    Downloaded := stringToDatasize (trimPrefixGo r.downloadedBoldText "Torrent: ")
    Uploaded := stringToDatasize (trimPrefixGo r.uploadedBoldText "Torrent: ")
    Ratio := snatchRatio (trimPrefixGo r.ratioBoldText "Torrent: ")
    Completed := parseFullDate r.completedBoldText
    Stopped := stoppedPair.1
    Seeding := stoppedPair.2 }

/-! ## The concurrent crawl-and-merge skeleton (`Torrent.go` lines 290-371
and 572-624)

The channel traffic of one crawl is modelled as a sequence of events: a
record arriving on the results channel, or a completion signal arriving on
the finished channel.  The interleaving is arbitrary, so the theorems
quantify over all event sequences. -/

inductive CEvent (α : Type) where
  | rcd (a : α)
  | done
deriving DecidableEq, Repr

def countDone {α : Type} : List (CEvent α) → ℕ
  | [] => 0
  | .rcd _ :: t => countDone t
  | .done :: t => 1 + countDone t

/-- Model of the `select` loop of `Search` (`Torrent.go` lines 332-341) and
of the identical snatch loop of `Details` (lines 606-615): consume events,
merging records into the map keyed by `key` (a later record with an
existing key overwrites, as the Go map assignment does) and counting
completion signals, until `need` signals have been consumed; the loop
cannot return before that, which is modelled by returning `none` when the
event sequence is exhausted early. -/
def mergeLoop {κ α : Type} [DecidableEq κ] (key : α → κ) :
    List (CEvent α) → ℕ → List (κ × α) → Option (List (κ × α) × List (CEvent α))
  | evs, 0, m => some (m, evs)
  | [], _ + 1, _ => none
  | .rcd a :: evs, n + 1, m => mergeLoop key evs (n + 1) (mapSet m (key a) a)
  | .done :: evs, n + 1, m => mergeLoop key evs n m

/-- Pattern `page=(\d+)` compiled at `Torrent.go` line 310. -/
def pageRe : Re := .seq (Re.lit "page=") (.group 1 (Re.plusG (.cls .digit)))

/-- Model of the pagination scan of `Search` (`Torrent.go` lines 310-322):
over every pagination anchor's `href`, take all matches of `page=(\d+)`
and keep the maximum page number seen (`ParseInt` errors are ignored,
keeping Go's value). -/
def maxPageOf (hrefs : List String) : ℤ :=
  hrefs.foldl
    (fun maxpage href =>
      (reFindAll pageRe href).foldl
        (fun maxpage caps =>
          let page := parseIntLoose 32 (capGet caps 1)
          if page > maxpage then page else maxpage)
        maxpage)
    0

/-- Number of concurrent fetch+extract tasks `Search` starts
(`Torrent.go` lines 297-330): one goroutine over the already-fetched
page-1 body, plus one `crawlTorrentList` goroutine per page `1..maxpage`. -/
def searchTaskCount (maxpage : ℕ) : ℕ := 1 + (List.range' 1 maxpage).length

/-- Events one fetch+extract task contributes to the channels: the records
it parses followed by exactly one completion signal; a failed fetch
contributes only the completion signal (`crawlTorrentList`,
`Torrent.go` lines 353-371, whose `defer` sends `true` on `chFinished`
on every path). -/
def crawlTaskEvents {α : Type} (outcome : Option (List α)) : List (CEvent α) :=
  match outcome with
  | none => [.done]
  | some recs => recs.map .rcd ++ [.done]

/-! ## Chat feed decode (`Shoutbox.go` lines 36-170, 207-250, 533-541) -/

structure ShoutboxEvent where
  /-- The source names this field `Type`, which is a Lean keyword. -/
  EType : ℤ
  ID : ℤ
  Data : List String
deriving DecidableEq, Repr

structure ShoutboxMessage where
  Id : ℤ
  User : String
  UserId : ℤ
  Date : Option GoDate
  Message : String
  Event : Option ShoutboxEvent
deriving DecidableEq, Repr

/-- Model of `sanitizeJSON` (`Shoutbox.go` lines 533-541): replace every tab
with four spaces. -/
def sanitizeJSON (s : String) : String := goReplaceAll s "\t" "    "

/-- Exact-shape model of `time.Parse("02.01. 15:04", s)`: two-digit day,
dot, two-digit month, dot, space, two-digit hour, colon, two-digit minute,
with basic range validation (Go infers the year as year 0 of the layout;
the year is irrelevant to every claim and set to 0 here). -/
def parseShoutDate (s : String) : Option GoDate :=
  match s.data with
  | [d1, d2, '.', m1, m2, '.', ' ', h1, h2, ':', n1, n2] =>
    if [d1, d2, m1, m2, h1, h2, n1, n2].all Char.isDigit then
      let mo := digitsVal [m1, m2]
      let da := digitsVal [d1, d2]
      let ho := digitsVal [h1, h2]
      let mi := digitsVal [n1, n2]
      if 1 ≤ mo ∧ mo ≤ 12 ∧ 1 ≤ da ∧ da ≤ 31 ∧ ho ≤ 23 ∧ mi ≤ 59 then
        some ⟨0, mo, da, ho, mi, 0⟩
      else none
    else none
  | _ => none

/-- Field access `jmsg[i]` on a wire tuple.  The Go code indexes the slice
directly and would panic on a tuple shorter than 7; the theorems below only
ever instantiate tuples of arity 7, where `getD` agrees with Go. -/
def tupGet (t : List String) (i : ℕ) : String := t.getD i ""

/-- Model of the control-tuple branch of `ShoutboxRead` (`Shoutbox.go`
lines 106-131): the first tuple becomes a `ShoutboxMessage` that carries
only an event (type and id parsed leniently, data fields 3-6). -/
def controlMessage (t : List String) : ShoutboxMessage :=
  { Id := 0, User := "", UserId := 0, Date := none, Message := "",
    Event := some
      { EType := parseIntLoose 32 (tupGet t 0).data
        ID := parseIntLoose 32 (tupGet t 1).data
        Data := [tupGet t 3, tupGet t 4, tupGet t 5, tupGet t 6] } }

/-- Model of the message-tuple branch of `ShoutboxRead` (`Shoutbox.go`
lines 135-161). -/
def toShoutboxMessage (url : String) (t : List String) : ShoutboxMessage :=
  { Id := parseIntLoose 32 (tupGet t 0).data
    UserId := parseIntLoose 32 (tupGet t 1).data
    User := tupGet t 4
    Date := parseShoutDate (tupGet t 2)
    Message := ShoutboxStrip (tupGet t 5) url
    Event := none }

/-- One step of the decode loop of `ShoutboxRead` (`Shoutbox.go` lines
105-162): index 0 is the control tuple and is appended to the message list;
a later tuple is skipped when its leading field is empty or its
message-type discriminator (field 6) is non-empty, and otherwise appended
as a chat message. -/
def shoutboxDecodeStep (url : String) (acc : List ShoutboxMessage) :
    ℕ × List String → List ShoutboxMessage
  | (0, t) => acc ++ [controlMessage t]
  | (_ + 1, t) =>
    if tupGet t 0 = "" then acc
    else if tupGet t 6 ≠ "" then acc
    else acc ++ [toShoutboxMessage url t]

/-- Model of the decode-and-reverse part of `ShoutboxRead` (`Shoutbox.go`
lines 94-169): fold the decode step over the indexed tuples, then reverse
(the wire delivers newest-first, the contract is oldest-first). -/
def shoutboxDecode (url : String) (jsonMsg : List (List String)) : List ShoutboxMessage :=
  (jsonMsg.enum.foldl (shoutboxDecodeStep url) []).reverse

/-! ### Structural JSON decoding of `[][]string`

Model of `json.Unmarshal(body, &jsonMsg)` restricted to what that type
accepts: a JSON array of arrays of strings.  Strings support the standard
escapes and `\uXXXX` for code points below 0x110000 (surrogate-pair
recombination and the `null` literal are outside the model; neither occurs
in any input reasoned about below).  Any other shape is a decode error,
modelled as `none`. -/

def isJsonWS (c : Char) : Bool := c = ' ' ∨ c = '\n' ∨ c = '\r' ∨ c = '\t'

def skipWS (l : List Char) : List Char := l.dropWhile isJsonWS

def hexVal (c : Char) : Option ℕ :=
  if c.isDigit then some (c.toNat - 48)
  else if 'a' ≤ c ∧ c ≤ 'f' then some (c.toNat - 87)
  else if 'A' ≤ c ∧ c ≤ 'F' then some (c.toNat - 55)
  else none

/-- Parse the remainder of a JSON string literal (after the opening quote),
returning the decoded content and the rest after the closing quote. -/
def parseJStrFuel : ℕ → List Char → Option (List Char × List Char)
  | 0, _ => none
  | _ + 1, [] => none
  | fuel + 1, c :: cs =>
    if c = '"' then some ([], cs)
    else if c = '\\' then
      match cs with
      | [] => none
      | e :: rest =>
        let dec : Option (Char × List Char) :=
          if e = '"' then some ('"', rest)
          else if e = '\\' then some ('\\', rest)
          else if e = '/' then some ('/', rest)
          else if e = 'b' then some ('\x08', rest)
          else if e = 'f' then some ('\x0c', rest)
          else if e = 'n' then some ('\n', rest)
          else if e = 'r' then some ('\r', rest)
          else if e = 't' then some ('\t', rest)
          else if e = 'u' then
            match rest with
            | h1 :: h2 :: h3 :: h4 :: rest' =>
              match hexVal h1, hexVal h2, hexVal h3, hexVal h4 with
              | some v1, some v2, some v3, some v4 =>
                some (Char.ofNat (((v1 * 16 + v2) * 16 + v3) * 16 + v4), rest')
              | _, _, _, _ => none
            | _ => none
          else none
        match dec with
        | none => none
        | some (d, rest') =>
          (parseJStrFuel fuel rest').map (fun x => (d :: x.1, x.2))
    else if c.toNat < 32 then none
    else (parseJStrFuel fuel cs).map (fun x => (c :: x.1, x.2))

/-- Parse one inner array of strings, starting right after its `[`. -/
def parseJTupleFuel : ℕ → List Char → Option (List String × List Char)
  | 0, _ => none
  | fuel + 1, l =>
    match skipWS l with
    | ']' :: rest => some ([], rest)
    | '"' :: rest =>
      match parseJStrFuel (rest.length + 1) rest with
      | none => none
      | some (s, rest') =>
        match skipWS rest' with
        | ']' :: rest'' => some ([String.mk s], rest'')
        | ',' :: rest'' =>
          match skipWS rest'' with
          | '"' :: rest3 =>
            match parseJStrFuel (rest3.length + 1) rest3 with
            | none => none
            | some (s2, rest4) =>
              (parseJTupleTail fuel s2 rest4).map (fun x => (String.mk s :: x.1, x.2))
          | _ => none
        | _ => none
    | _ => none
where
  /-- Continue after having read one more string element. -/
  parseJTupleTail : ℕ → List Char → List Char → Option (List String × List Char)
  | 0, _, _ => none
  | fuel + 1, s, rest =>
    match skipWS rest with
    | ']' :: rest' => some ([String.mk s], rest')
    | ',' :: rest' =>
      match skipWS rest' with
      | '"' :: rest'' =>
        match parseJStrFuel (rest''.length + 1) rest'' with
        | none => none
        | some (s2, rest3) =>
          (parseJTupleTail fuel s2 rest3).map (fun x => (String.mk s :: x.1, x.2))
      | _ => none
    | _ => none

/-- Parse the top-level array of tuples, starting right after its `[`. -/
def parseJTopFuel : ℕ → List Char → Option (List (List String) × List Char)
  | 0, _ => none
  | fuel + 1, l =>
    match skipWS l with
    | ']' :: rest => some ([], rest)
    | '[' :: rest =>
      match parseJTupleFuel (rest.length + 1) rest with
      | none => none
      | some (t, rest') =>
        match skipWS rest' with
        | ']' :: rest'' => some ([t], rest'')
        | ',' :: rest'' =>
          (parseJTopFuel fuel rest'').map (fun x => (t :: x.1, x.2))
        | _ => none
    | _ => none

/-- Model of `json.Unmarshal` into `[][]string`: optional leading
whitespace, the array, optional trailing whitespace, nothing else. -/
def jsonTuples (s : String) : Option (List (List String)) :=
  match skipWS s.data with
  | '[' :: rest =>
    match parseJTopFuel (rest.length + 1) rest with
    | none => none
    | some (js, rest') => if skipWS rest' = [] then some js else none
  | _ => none

/-- Error taxonomy of the chat feed decode path. -/
inductive ShoutErr where
  | serverload
  | decodeErr
deriving DecidableEq, Repr

/-- The literal server-overload marker checked at `Shoutbox.go` line 98. -/
def serverloadMarker : String := "Die Serverlast ist Momentan zu hoch"

/-- Model of the response-processing part of `ShoutboxRead` (`Shoutbox.go`
lines 83-169): sanitize the payload; a body of length at most 1 yields an
empty result with no error; a structurally undecodable body yields the
`serverload` error when it contains the overload marker and the generic
decode error otherwise; a decodable body is decoded and reversed. -/
def shoutboxReadDecode (url rawBody : String) : Except ShoutErr (List ShoutboxMessage) :=
  let body := sanitizeJSON rawBody
  if body.data.length ≤ 1 then .ok []
  else
    match jsonTuples body with
    | some js => .ok (shoutboxDecode url js)
    | none =>
      if containsSub body serverloadMarker then .error .serverload
      else .error .decodeErr

/-- Model of the response scan of `ShoutboxWrite` (`Shoutbox.go` lines
234-247): skip tuples with an empty leading field; parse field 1 leniently
as the author id; succeed on the first tuple whose author id equals the
session uid and whose raw field 5 equals the submitted message. -/
def shoutboxWriteScan (uid : ℤ) (message : String) : List (List String) → Bool
  | [] => false
  | t :: ts =>
    if tupGet t 0 = "" then shoutboxWriteScan uid message ts
    else if parseIntLoose 32 (tupGet t 1).data = uid ∧ tupGet t 5 = message then true
    else shoutboxWriteScan uid message ts

/-- Model of the response-processing part of `ShoutboxWrite` (`Shoutbox.go`
lines 220-249): sanitize, decode (any decode failure is returned as an
error), then scan; no match is the non-error result `false`. -/
def shoutboxWriteResult (uid : ℤ) (message : String) (rawBody : String) :
    Except ShoutErr Bool :=
  let body := sanitizeJSON rawBody
  match jsonTuples body with
  | none => .error .decodeErr
  | some js => .ok (shoutboxWriteScan uid message js)


/-! ## Helper lemmas: the merge map -/

theorem mapSet_fst {κ α : Type} [DecidableEq κ] (m : List (κ × α)) (k : κ) (v : α) :
    (mapSet m k v).map Prod.fst =
      if k ∈ m.map Prod.fst then m.map Prod.fst else m.map Prod.fst ++ [k] := by
  induction m with
  | nil => simp [mapSet]
  | cons p t ih =>
    rw [mapSet]
    by_cases h : p.1 = k
    · subst h; simp
    · simp only [if_neg h, List.map_cons, ih]
      by_cases h2 : k ∈ t.map Prod.fst
      · simp [h2, List.mem_cons, Ne.symm h]
      · simp [h2, List.mem_cons, Ne.symm h]

theorem nodup_mapSet {κ α : Type} [DecidableEq κ] (m : List (κ × α)) (k : κ) (v : α)
    (h : (m.map Prod.fst).Nodup) : ((mapSet m k v).map Prod.fst).Nodup := by
  rw [mapSet_fst]
  by_cases h2 : k ∈ m.map Prod.fst
  · simpa [h2] using h
  · simp [h2, List.nodup_append, h]

theorem keyinv_mapSet {κ α : Type} [DecidableEq κ] (key : α → κ) (k : κ) (v : α)
    (hv : key v = k) :
    ∀ (m : List (κ × α)), (∀ p ∈ m, key p.2 = p.1) → ∀ p ∈ mapSet m k v, key p.2 = p.1
  | [], _, p, hp => by
    simp [mapSet] at hp
    simp [hp, hv]
  | q :: t, hm, p, hp => by
    rw [mapSet] at hp
    by_cases hk : q.1 = k
    · rw [if_pos hk] at hp
      rcases List.mem_cons.mp hp with rfl | hp'
      · exact hv
      · exact hm p (List.mem_cons.mpr (Or.inr hp'))
    · rw [if_neg hk] at hp
      rcases List.mem_cons.mp hp with rfl | hp'
      · exact hm p (List.mem_cons.mpr (Or.inl rfl))
      · exact keyinv_mapSet key k v hv t
          (fun r hr => hm r (List.mem_cons.mpr (Or.inr hr))) p hp'

theorem mapGet_mapSet {κ α : Type} [DecidableEq κ] (m : List (κ × α)) (k : κ) (v : α) :
    mapGet (mapSet m k v) k = some v := by
  induction m with
  | nil => simp [mapSet, mapGet]
  | cons p t ih =>
    rw [mapSet]
    by_cases hk : p.1 = k
    · simp [if_pos hk, mapGet]
    · rw [if_neg hk]
      simp only [mapGet, List.find?] at ih ⊢
      simp [hk, ih]

/-- Invariant propagation along the merge loop: key-uniqueness of the map
and key-consistency of the stored records are preserved. -/
theorem mergeLoop_inv {κ α : Type} [DecidableEq κ] (key : α → κ) :
    ∀ (evs : List (CEvent α)) (n : ℕ) (m0 m : List (κ × α)) (rest : List (CEvent α)),
      mergeLoop key evs n m0 = some (m, rest) →
      (m0.map Prod.fst).Nodup → (∀ p ∈ m0, key p.2 = p.1) →
      (m.map Prod.fst).Nodup ∧ ∀ p ∈ m, key p.2 = p.1
  | evs, 0, m0, m, rest, h, h1, h2 => by
    rw [mergeLoop] at h
    obtain ⟨rfl, -⟩ : m0 = m ∧ evs = rest := by
      have := Option.some.inj h
      exact ⟨congrArg Prod.fst this, congrArg Prod.snd this⟩
    exact ⟨h1, h2⟩
  | [], n + 1, m0, m, rest, h, h1, h2 => by
    rw [mergeLoop] at h
    exact absurd h (by simp)
  | .rcd a :: t, n + 1, m0, m, rest, h, h1, h2 => by
    rw [mergeLoop] at h
    exact mergeLoop_inv key t (n + 1) _ m rest h (nodup_mapSet _ _ _ h1)
      (keyinv_mapSet key _ _ rfl m0 h2)
  | .done :: t, n + 1, m0, m, rest, h, h1, h2 => by
    rw [mergeLoop] at h
    exact mergeLoop_inv key t n _ m rest h h1 h2

/-- C1: for every multi-page crawl, the returned collection is
duplicate-free under its deduplication key: the catalog crawl of `Search`
never returns two `TorrentEntry` records with the same `Id`, the
activity-history crawl of `Details` never returns two `Snatch` records
with the same peer `Name`, and a later record for an existing key
overwrites the earlier one in the merge map. -/
theorem crawl_results_deduplicated :
    (∀ (evs : List (CEvent TorrentEntry)) (n : ℕ) m rest,
        mergeLoop (fun te => te.Id) evs n [] = some (m, rest) →
        ((m.map Prod.snd).map TorrentEntry.Id).Nodup)
    ∧ (∀ (evs : List (CEvent Snatch)) (n : ℕ) m rest,
        mergeLoop (fun sn => sn.Name) evs n [] = some (m, rest) →
        ((m.map Prod.snd).map Snatch.Name).Nodup)
    ∧ (∀ (m : List (ℤ × TorrentEntry)) (k : ℤ) (v : TorrentEntry),
        mapGet (mapSet m k v) k = some v) := by
  refine ⟨?_, ?_, fun m k v => mapGet_mapSet m k v⟩
  · intro evs n m rest h
    obtain ⟨h1, h2⟩ := mergeLoop_inv (fun te => te.Id) evs n [] m rest h (by simp) (by simp)
    have he : (m.map Prod.snd).map TorrentEntry.Id = m.map Prod.fst := by
      rw [List.map_map]
      exact List.map_congr_left h2
    rw [he]; exact h1
  · intro evs n m rest h
    obtain ⟨h1, h2⟩ := mergeLoop_inv (fun sn => sn.Name) evs n [] m rest h (by simp) (by simp)
    have he : (m.map Prod.snd).map Snatch.Name = m.map Prod.fst := by
      rw [List.map_map]
      exact List.map_congr_left h2
    rw [he]; exact h1

/-- Concrete catalog entries used to instantiate the crawl theorems. -/
def sampleEntryA : TorrentEntry :=
  { Id := 7
    Name := "a"
    Category := 0
    Added := none
    Size := 0
    Description := ""
    InfoHash := ""
    FileCount := 0
    SeederCount := 0
    LeecherCount := 0
    SnatchCount := 0
    CommentCount := 0
    Uploader := "" }

def sampleEntryB : TorrentEntry :=
  { sampleEntryA with Name := "b" }

/-- Witness for C1 at a concrete event trace: two records with the same id
arrive before the completion signal, and the merged result keeps a single
entry for that id. -/
theorem crawl_results_deduplicated_witness :
    (([((7 : ℤ), sampleEntryB)].map Prod.snd).map TorrentEntry.Id).Nodup
    ∧ mapGet (mapSet ([] : List (ℤ × TorrentEntry)) 7 sampleEntryB) 7 = some sampleEntryB := by
  constructor
  · exact crawl_results_deduplicated.1
      [CEvent.rcd sampleEntryA, CEvent.rcd sampleEntryB, CEvent.done] 1 _ [] rfl
  · exact crawl_results_deduplicated.2.2 [] 7 sampleEntryB

/-! ## Helper lemmas: completion counting -/

theorem countDone_append {α : Type} (a b : List (CEvent α)) :
    countDone (a ++ b) = countDone a + countDone b := by
  induction a with
  | nil => simp [countDone]
  | cons e t ih =>
    cases e with
    | rcd x => simp [countDone, ih]
    | done => simp [countDone, ih]; omega

theorem countDone_map_rcd {α : Type} (l : List α) : countDone (l.map CEvent.rcd) = 0 := by
  induction l with
  | nil => simp [countDone]
  | cons x t ih => simp [countDone, ih]

/-- The merge loop returns exactly when it has consumed a prefix of the
event sequence containing precisely `n` completion signals. -/
theorem mergeLoop_consumed {κ α : Type} [DecidableEq κ] (key : α → κ) :
    ∀ (evs : List (CEvent α)) (n : ℕ) (m0 m : List (κ × α)) (rest : List (CEvent α)),
      mergeLoop key evs n m0 = some (m, rest) →
      ∃ consumed, evs = consumed ++ rest ∧ countDone consumed = n
  | evs, 0, m0, m, rest, h => by
    rw [mergeLoop] at h
    have heq := Option.some.inj h
    have h2 : evs = rest := congrArg Prod.snd heq
    exact ⟨[], by simp [h2], by simp [countDone]⟩
  | [], n + 1, m0, m, rest, h => by
    rw [mergeLoop] at h
    exact absurd h (by simp)
  | .rcd a :: t, n + 1, m0, m, rest, h => by
    rw [mergeLoop] at h
    obtain ⟨consumed, hc, hn⟩ := mergeLoop_consumed key t (n + 1) _ m rest h
    exact ⟨.rcd a :: consumed, by simp [hc], by simpa [countDone] using hn⟩
  | .done :: t, n + 1, m0, m, rest, h => by
    rw [mergeLoop] at h
    obtain ⟨consumed, hc, hn⟩ := mergeLoop_consumed key t n _ m rest h
    exact ⟨.done :: consumed, by simp [hc], by simp [countDone, hn]; omega⟩

/-- With fewer than `n` completion signals in the whole event sequence the
merge loop never returns. -/
theorem mergeLoop_stuck {κ α : Type} [DecidableEq κ] (key : α → κ) :
    ∀ (evs : List (CEvent α)) (n : ℕ) (m0 : List (κ × α)),
      countDone evs < n → mergeLoop key evs n m0 = none
  | [], n, m0, h => by
    cases n with
    | zero => simp [countDone] at h
    | succ k => rw [mergeLoop]
  | .rcd a :: t, n, m0, h => by
    cases n with
    | zero => simp at h
    | succ k =>
      rw [mergeLoop]
      exact mergeLoop_stuck key t (k + 1) _ (by simpa [countDone] using h)
  | .done :: t, n, m0, h => by
    cases n with
    | zero => simp at h
    | succ k =>
      rw [mergeLoop]
      exact mergeLoop_stuck key t k _ (by simp [countDone] at h; omega)

/-- C2: for a first page whose pagination links report maximum page number
N, `Search` starts exactly N+1 concurrent fetch+extract tasks (no
pagination links means N = 0 and one task); each task contributes exactly
one completion signal whatever its fetch outcome; and the merge loop
returns exactly after consuming N+1 completion signals, and cannot return
on an event sequence holding fewer. -/
theorem search_completion_counting :
    (∀ N : ℕ, searchTaskCount N = N + 1)
    ∧ maxPageOf [] = 0
    ∧ searchTaskCount (maxPageOf []).toNat = 1
    ∧ (∀ outcome : Option (List TorrentEntry), countDone (crawlTaskEvents outcome) = 1)
    ∧ (∀ (N : ℕ) (evs : List (CEvent TorrentEntry)) m rest,
        mergeLoop (fun te => te.Id) evs (N + 1) [] = some (m, rest) →
        ∃ consumed, evs = consumed ++ rest ∧ countDone consumed = N + 1)
    ∧ (∀ (N : ℕ) (evs : List (CEvent TorrentEntry)),
        countDone evs < N + 1 → mergeLoop (fun te => te.Id) evs (N + 1) [] = none) := by
  refine ⟨?_, rfl, rfl, ?_, ?_, ?_⟩
  · intro N
    simp [searchTaskCount, List.length_range']
    omega
  · intro outcome
    cases outcome with
    | none => simp [crawlTaskEvents, countDone]
    | some recs => simp [crawlTaskEvents, countDone_append, countDone_map_rcd, countDone]
  · exact fun N evs m rest h => mergeLoop_consumed _ evs (N + 1) [] m rest h
  · exact fun N evs h => mergeLoop_stuck _ evs (N + 1) [] h

/-- Witness for C2 at concrete inputs: a two-page crawl trace with its two
completion signals, and a stuck trace with only one. -/
theorem search_completion_counting_witness :
    searchTaskCount 1 = 2
    ∧ countDone (crawlTaskEvents (some [sampleEntryA])) = 1
    ∧ (∃ consumed,
        [CEvent.rcd sampleEntryA, CEvent.done, CEvent.rcd sampleEntryB, CEvent.done]
          = consumed ++ [] ∧ countDone consumed = 2)
    ∧ mergeLoop (fun te : TorrentEntry => te.Id) [CEvent.done] 2 [] = none := by
  refine ⟨search_completion_counting.1 1,
    search_completion_counting.2.2.2.1 (some [sampleEntryA]),
    search_completion_counting.2.2.2.2.1 1
      [CEvent.rcd sampleEntryA, CEvent.done, CEvent.rcd sampleEntryB, CEvent.done]
      (mapSet (mapSet [] sampleEntryA.Id sampleEntryA) sampleEntryB.Id sampleEntryB) [] rfl,
    search_completion_counting.2.2.2.2.2 1 [CEvent.done] (by simp [countDone])⟩

/-- Concrete peer row used to evaluate the peer extractor. -/
def samplePeerRow : PeerRowTexts :=
  { nameText := "peer1"
    connectableText := "Ja"
    uploadedText := "1,00 GB"
    ulrateText := "1,00 MB/s"
    downloadedText := "2,00 GB"
    dlrateText := "2,00 MB/s"
    ratioTdText := "1.50"
    ratioFontText := "1.50"
    completedTitle := some "50%"
    connectedText := "2d 03:04:05"
    clientText := "client" }

/-- C4: evaluation of the connected-duration code at the claim's inputs.
The source's pattern `(:?(\d+)d )?([0-9:]+)` (with `(:?` where `(?:` was
intended) makes `m[1]` the whole `"2d "` segment — whose `ParseUint` fails,
zeroing the day part — and `m[2]` the day digits alone, so the source
computes 2 seconds for `"2d 03:04:05"` and 0 for `"03:04:05"` instead of
the documented `days*86400 + hours*3600 + minutes*60 + seconds`; moreover
the computed local is never stored, so the returned `Peer.Connected` is
always 0. -/
theorem connected_duration_code_bug :
    computeConnected "2d 03:04:05" = 2
    ∧ computeConnected "03:04:05" = 0
    ∧ (2 : ℕ) ≠ 2 * 86400 + 3 * 3600 + 4 * 60 + 5
    ∧ (0 : ℕ) ≠ 3 * 3600 + 4 * 60 + 5
    ∧ (parsePeerRow samplePeerRow).Connected = 0 := by
  refine ⟨by decide, by decide, by decide, by decide, rfl⟩


/-- C5: the three-way ratio interpretation of both the peer-roster and the
snatch extractors: the literal `Inf.` marker yields −1.0, the literal
`---` marker yields 0.0, and any other text is parsed as a decimal number
(the `font` child's text, for the peer path) with 0.0 as the default when
parsing fails; in particular `1.50` yields 1.5. -/
theorem ratio_three_way :
    (∀ fontText, peerRatio "Inf." fontText = -1)
    ∧ (∀ fontText, peerRatio "---" fontText = 0)
    ∧ (∀ tdText fontText, tdText ≠ "Inf." → tdText ≠ "---" →
        peerRatio tdText fontText = (parseGoFloat fontText).getD 0)
    ∧ peerRatio "1.50" "1.50" = 3 / 2
    ∧ (parsePeerRow samplePeerRow).Ratio = 3 / 2
    ∧ snatchRatio "Inf." = -1
    ∧ snatchRatio "---" = 0
    ∧ (∀ t, t ≠ "Inf." → t ≠ "---" → snatchRatio t = (parseGoFloat t).getD 0)
    ∧ snatchRatio "1.50" = 3 / 2
    ∧ snatchRatio "abc" = 0 := by
  refine ⟨fun f => rfl, fun f => rfl, ?_, by with_unfolding_all decide,
    by with_unfolding_all decide, by with_unfolding_all decide,
    by with_unfolding_all decide, ?_, by with_unfolding_all decide,
    by with_unfolding_all decide⟩
  · intro tdText fontText h1 h2
    simp [peerRatio, h1, h2]
  · intro t h1 h2
    simp [snatchRatio, h1, h2]

/-- Witness for C5: the generic parse clause evaluated at a concrete
non-marker ratio text on both extraction paths. -/
theorem ratio_three_way_witness :
    peerRatio "2.25" "2.25" = (parseGoFloat "2.25").getD 0
    ∧ snatchRatio "2.25" = (parseGoFloat "2.25").getD 0 := by
  exact ⟨ratio_three_way.2.2.1 "2.25" "2.25" (by decide) (by decide),
    ratio_three_way.2.2.2.2.2.2.2.1 "2.25" (by decide) (by decide)⟩

/-- C8: the text normalizer on the claim's inputs: bold wrappers are
stripped to their inner text; a site-relative link becomes
`text [base-url/path]`; an emoji image reference whose file name is in the
table becomes the single mapped code point (`zwinkern.gif` maps to
U+1F609); an emoji reference with an unmapped file name passes through as
the sentinel `emoji:<name>`. -/
theorem shoutbox_strip_examples :
    ShoutboxStrip "<b>hi</b>" "https://example.org" = "hi"
    ∧ ShoutboxStrip "<a href=\"/x\">go</a>" "https://example.org"
        = "go [https://example.org/x]"
    ∧ ShoutboxStrip "<img src=\"/pic/smilies/zwinkern.gif\" border=\"0\" alt=\"\">"
        "https://example.org" = String.mk [Char.ofNat 0x1F609]
    ∧ mapGet emojis "zwinkern.gif" = some 0x1F609
    ∧ ShoutboxStrip "<img src=\"/pic/smilies/unknown.gif\" border=\"0\" alt=\"\">"
        "https://example.org" = "emoji:unknown.gif"
    ∧ mapGet emojis "unknown.gif" = none := by
  exact ⟨by decide, by decide, by decide, by decide, by decide, by decide⟩

/-- Concrete 3-tuple chat batch: one control tuple followed by two message
tuples (wire order is newest-first). -/
def wireControlC6 : List String := ["64", "1", "x", "a", "b", "c", "d"]

def wireMsg1C6 : List String := ["100", "7", "01.02. 03:04", "z", "alice", "hello", ""]

def wireMsg2C6 : List String := ["99", "8", "01.02. 03:03", "z", "bob", "hi", ""]

/-- Counterexample to C6 as stated: decoding a 3-tuple batch (1 control
tuple + 2 message tuples with non-empty leading field and empty type
discriminator) returns a list of three records, not two: the control event
is not excluded from the returned message list — it is appended as a
record carrying the event, and after the final reversal it sits at the end
of the returned list. -/
theorem shoutbox_control_included_counterexample :
    (shoutboxDecode "" [wireControlC6, wireMsg1C6, wireMsg2C6]).length = 3
    ∧ (shoutboxDecode "" [wireControlC6, wireMsg1C6, wireMsg2C6]).getLast?
        = some (controlMessage wireControlC6)
    ∧ (controlMessage wireControlC6).Event.isSome = true := by
  exact ⟨by decide, by decide, by decide⟩

/-- Folding the decode step over the message tuples (indices starting at 1)
appends one chat message per tuple, in wire order. -/
theorem foldl_decode_msgs (url : String) :
    ∀ (ms : List (List String)) (i : ℕ) (acc : List ShoutboxMessage),
      (∀ t ∈ ms, tupGet t 0 ≠ "" ∧ tupGet t 6 = "") →
      (List.enumFrom (i + 1) ms).foldl (shoutboxDecodeStep url) acc
        = acc ++ ms.map (toShoutboxMessage url)
  | [], _, acc, _ => by simp [List.enumFrom]
  | t :: ts, i, acc, h => by
    have ht := h t (List.mem_cons_self t ts)
    have hts : ∀ u ∈ ts, tupGet u 0 ≠ "" ∧ tupGet u 6 = "" :=
      fun u hu => h u (List.mem_cons_of_mem t hu)
    have hstep : shoutboxDecodeStep url acc (i + 1, t)
        = acc ++ [toShoutboxMessage url t] := by
      rw [shoutboxDecodeStep]
      rw [if_neg ht.1, if_neg (by simp [ht.2])]
    calc (List.enumFrom (i + 1) (t :: ts)).foldl (shoutboxDecodeStep url) acc
        = (List.enumFrom (i + 2) ts).foldl (shoutboxDecodeStep url)
            (shoutboxDecodeStep url acc (i + 1, t)) := by
          simp [List.enumFrom]
      _ = (acc ++ [toShoutboxMessage url t]) ++ ts.map (toShoutboxMessage url) := by
          rw [hstep]
          exact foldl_decode_msgs url ts (i + 1) _ hts
      _ = acc ++ (t :: ts).map (toShoutboxMessage url) := by simp

/-- C6 (amended): decoding a batch of one control tuple followed by message
tuples with non-empty leading field and empty type discriminator returns
the chat messages in oldest-first order (the reverse of the newest-first
wire order) followed by the control record — the control event is included
in the returned list as its final element, not excluded from it. -/
theorem shoutbox_decode_batch_amended :
    ∀ (url : String) (c : List String) (ms : List (List String)),
      (∀ t ∈ ms, tupGet t 0 ≠ "" ∧ tupGet t 6 = "") →
      shoutboxDecode url (c :: ms)
        = (ms.map (toShoutboxMessage url)).reverse ++ [controlMessage c] := by
  intro url c ms h
  rw [shoutboxDecode]
  have h1 : (c :: ms).enum = (0, c) :: List.enumFrom 1 ms := by
    simp [List.enum, List.enumFrom]
  rw [h1, List.foldl_cons]
  have h2 : shoutboxDecodeStep url [] (0, c) = [controlMessage c] := by
    rw [shoutboxDecodeStep]; simp
  rw [h2]
  have h3 := foldl_decode_msgs url ms 0 [controlMessage c] h
  simp only [Nat.zero_add] at h3
  rw [h3]
  simp

/-- Witness for C6 (amended) at the concrete 3-tuple batch. -/
theorem shoutbox_decode_batch_amended_witness :
    shoutboxDecode "" (wireControlC6 :: [wireMsg1C6, wireMsg2C6])
      = ([wireMsg1C6, wireMsg2C6].map (toShoutboxMessage "")).reverse
        ++ [controlMessage wireControlC6] :=
  shoutbox_decode_batch_amended "" wireControlC6 [wireMsg1C6, wireMsg2C6] (by decide)

/-- C7: the chat-feed error taxonomy: a near-empty body (single character
or less after sanitization, or the literal `[]`) decodes to an empty
message list with no error; a body that fails structural decoding yields
the distinguished `serverload` error exactly when it contains the known
overload marker, and the generic decode error otherwise. -/
theorem shoutbox_read_error_taxonomy :
    (∀ url body : String, (sanitizeJSON body).data.length ≤ 1 →
        shoutboxReadDecode url body = .ok [])
    ∧ (∀ url, shoutboxReadDecode url "[]" = .ok [])
    ∧ (∀ url body : String, 1 < (sanitizeJSON body).data.length →
        jsonTuples (sanitizeJSON body) = none →
        shoutboxReadDecode url body =
          if containsSub (sanitizeJSON body) serverloadMarker
          then .error .serverload else .error .decodeErr)
    ∧ (∀ url, shoutboxReadDecode url "<b>Die Serverlast ist Momentan zu hoch</b>"
        = .error .serverload)
    ∧ (∀ url, shoutboxReadDecode url "<b>kaputt</b>" = .error .decodeErr) := by
  refine ⟨?_, fun url => rfl, ?_, fun url => rfl, fun url => rfl⟩
  · intro url body h1
    simp only [shoutboxReadDecode]
    rw [if_pos h1]
  · intro url body h1 h2
    simp only [shoutboxReadDecode]
    rw [if_neg (by omega), h2]

/-- Witness for C7 at concrete payloads: the empty body and an undecodable
body without the overload marker. -/
theorem shoutbox_read_error_taxonomy_witness :
    shoutboxReadDecode "u" "" = .ok []
    ∧ shoutboxReadDecode "u" "defekt" =
        (if containsSub (sanitizeJSON "defekt") serverloadMarker
         then .error .serverload else .error .decodeErr) :=
  ⟨shoutbox_read_error_taxonomy.1 "u" "" (by decide),
    shoutbox_read_error_taxonomy.2.2.1 "u" "defekt" (by decide) (by decide)⟩

/-- Counterexample to C9 as stated: a response batch consisting of one
tuple whose leading field is empty but whose author-id field equals the
session uid and whose raw body equals the submitted text.  The claim's
"returns true exactly when some response tuple has an author id equal to
the caller's session uid and a raw body equal to the submitted text" fails
on it: the scan skips tuples with an empty leading field and returns the
non-error `false`. -/
theorem shoutbox_write_match_counterexample :
    shoutboxWriteScan 42 "hi" [["", "42", "", "", "", "hi", ""]] = false
    ∧ parseIntLoose 32 (tupGet ["", "42", "", "", "", "hi", ""] 1).data = 42
    ∧ tupGet ["", "42", "", "", "", "hi", ""] 5 = "hi"
    ∧ shoutboxWriteResult 42 "hi" "[[\"\",\"42\",\"\",\"\",\"\",\"hi\",\"\"]]" = .ok false := by
  exact ⟨by decide, by decide, by decide, rfl⟩

/-- C9 (amended): `ShoutboxWrite` decodes the response and returns true
exactly when some response tuple with a non-empty leading field has an
author id (field 1, parsed leniently) equal to the caller's session uid
and a raw body (field 5) equal to the submitted text; when no such tuple
exists the result is the non-error boolean `false`, not an error value. -/
theorem shoutbox_write_amended :
    ∀ (uid : ℤ) (message : String) (ts : List (List String)),
      (shoutboxWriteScan uid message ts = true ↔
        ∃ t ∈ ts, tupGet t 0 ≠ "" ∧ parseIntLoose 32 (tupGet t 1).data = uid
          ∧ tupGet t 5 = message)
      ∧ (∀ rawBody, jsonTuples (sanitizeJSON rawBody) = some ts →
          shoutboxWriteResult uid message rawBody
            = .ok (shoutboxWriteScan uid message ts)) := by
  intro uid message ts
  constructor
  · induction ts with
    | nil => simp [shoutboxWriteScan]
    | cons t ts ih =>
      rw [shoutboxWriteScan]
      by_cases h0 : tupGet t 0 = ""
      · rw [if_pos h0, ih]
        constructor
        · rintro ⟨u, hu, hc⟩
          exact ⟨u, List.mem_cons_of_mem t hu, hc⟩
        · rintro ⟨u, hu, hc⟩
          rcases List.mem_cons.mp hu with rfl | hu'
          · exact absurd h0 hc.1
          · exact ⟨u, hu', hc⟩
      · rw [if_neg h0]
        by_cases hm : parseIntLoose 32 (tupGet t 1).data = uid ∧ tupGet t 5 = message
        · rw [if_pos hm]
          simp only [true_iff]
          exact ⟨t, List.mem_cons_self t ts, h0, hm.1, hm.2⟩
        · rw [if_neg hm, ih]
          constructor
          · rintro ⟨u, hu, hc⟩
            exact ⟨u, List.mem_cons_of_mem t hu, hc⟩
          · rintro ⟨u, hu, hc⟩
            rcases List.mem_cons.mp hu with rfl | hu'
            · exact absurd ⟨hc.2.1, hc.2.2⟩ hm
            · exact ⟨u, hu', hc⟩
  · intro rawBody h
    simp only [shoutboxWriteResult, h]

/-- Witness for C9 (amended) at a concrete response payload containing a
matching message tuple. -/
theorem shoutbox_write_amended_witness :
    shoutboxWriteResult 42 "hi" "[[\"1\",\"42\",\"\",\"\",\"\",\"hi\",\"\"]]"
      = .ok (shoutboxWriteScan 42 "hi" [["1", "42", "", "", "", "hi", ""]]) :=
  (shoutbox_write_amended 42 "hi" [["1", "42", "", "", "", "hi", ""]]).2
    "[[\"1\",\"42\",\"\",\"\",\"\",\"hi\",\"\"]]" (by decide)

/-! ## Helper lemmas: splitting -/

theorem goSplitL_ne_nil (sep : Char) (l : List Char) : goSplitL sep l ≠ [] := by
  cases l with
  | nil => simp [goSplitL]
  | cons c cs =>
    rw [goSplitL]
    rcases h : goSplitL sep cs with - | ⟨h', t⟩
    · simp
    · by_cases hc : c = sep <;> simp [hc]

theorem goSplitL_not_mem (sep : Char) (l : List Char) (h : sep ∉ l) :
    goSplitL sep l = [l] := by
  induction l with
  | nil => rfl
  | cons c cs ih =>
    rw [goSplitL]
    have hc : c ≠ sep := fun he => h (he ▸ List.mem_cons_self c cs)
    have hcs := ih (fun hm => h (List.mem_cons_of_mem c hm))
    rw [hcs]
    simp [hc]

theorem goSplitL_append_sep (sep : Char) (a b : List Char) (ha : sep ∉ a) :
    goSplitL sep (a ++ sep :: b) = a :: goSplitL sep b := by
  induction a with
  | nil =>
    rw [List.nil_append, goSplitL]
    rcases h : goSplitL sep b with - | ⟨h', t⟩
    · exact absurd h (goSplitL_ne_nil sep b)
    · simp
  | cons c cs ih =>
    have hc : c ≠ sep := fun he => ha (he ▸ List.mem_cons_self c cs)
    have hcs := ih (fun hm => ha (List.mem_cons_of_mem c hm))
    rw [List.cons_append, goSplitL, hcs]
    simp [hc]

/-- Truncation of zero. -/
theorem ratTruncToNat_zero : ratTruncToNat 0 = 0 := by
  with_unfolding_all rfl

/-- C10: `stringToDatasize` is total and never fails: an input with no
space yields 0; an input whose first space-separated token (after the
separator rewrite) parses as a number but whose second token is not one of
the six unit suffixes yields the bare numeric value truncated to an
integer; a non-numeric first token degrades to 0. -/
theorem stringToDatasize_total :
    (∀ s : String, ' ' ∉ s.data → stringToDatasize s = 0)
    ∧ (∀ (s : String) (t0 t1 : List Char) (rest : List (List Char)) (q : ℚ),
        goSplit ' ' s = t0 :: t1 :: rest →
        parseGoFloatL (goReplaceFirstL (goReplaceAllL t0 ['.'] []) [','] ['.']) = some q →
        String.mk t1 ∉ (["KB", "MB", "GB", "TB", "PB", "EB"] : List String) →
        stringToDatasize s = ratTruncToNat q)
    ∧ (∀ (s : String) (t0 t1 : List Char) (rest : List (List Char)),
        goSplit ' ' s = t0 :: t1 :: rest →
        parseGoFloatL (goReplaceFirstL (goReplaceAllL t0 ['.'] []) [','] ['.']) = none →
        stringToDatasize s = 0) := by
  refine ⟨?_, ?_, ?_⟩
  · intro s h
    have hs : goSplit ' ' s = [s.data] := goSplitL_not_mem ' ' s.data h
    simp only [stringToDatasize, hs]
    simp
  · intro s t0 t1 rest q hsplit hparse hunit
    simp only [stringToDatasize, hsplit]
    rw [if_neg (by simp)]
    simp only [List.headD_cons, List.getD_cons_succ, List.getD_cons_zero, hparse,
      Option.getD_some]
    split
    all_goals first
      | rfl
      | (exfalso; apply hunit; simp_all)
  · intro s t0 t1 rest hsplit hparse
    simp only [stringToDatasize, hsplit]
    rw [if_neg (by simp)]
    simp only [List.headD_cons, List.getD_cons_succ, List.getD_cons_zero, hparse,
      Option.getD_none]
    split
    all_goals simp [ratTruncToNat_zero]

/-- Witness for C10 at concrete inputs: a spaceless string, a numeric
first token with an unrecognised unit, and a non-numeric first token. -/
theorem stringToDatasize_total_witness :
    stringToDatasize "abc" = 0
    ∧ stringToDatasize "1,5 XX" = ratTruncToNat (3 / 2)
    ∧ stringToDatasize "x,y KB" = 0 :=
  ⟨stringToDatasize_total.1 "abc" (by decide),
    stringToDatasize_total.2.1 "1,5 XX" ['1', ',', '5'] ['X', 'X'] [] (3 / 2)
      (by decide) (by with_unfolding_all decide) (by decide),
    stringToDatasize_total.2.2 "x,y KB" ['x', ',', 'y'] ['K', 'B'] []
      (by decide) (by decide)⟩

/-! ## Helper lemmas: digit strings and the two size-conversion paths -/

theorem digit_toNat_le {c : Char} (h : c.isDigit = true) : c.toNat ≤ 57 := by
  simp [Char.isDigit] at h
  exact UInt32.toNat_le_of_le (by decide) h.2

theorem digit_toNat_ge {c : Char} (h : c.isDigit = true) : 48 ≤ c.toNat := by
  simp [Char.isDigit] at h
  exact UInt32.le_toNat_of_le (by decide) h.1

theorem digit_ne_of {c d : Char} (hc : c.isDigit = true) (hd : d.isDigit = false) :
    c ≠ d := by
  intro he
  rw [he, hd] at hc
  exact Bool.noConfusion hc

theorem digitsVal_two {d1 d2 : Char} :
    digitsVal [d1, d2] = 10 * (d1.toNat - 48) + (d2.toNat - 48) := by
  simp [digitsVal, List.foldl]

theorem digitsVal_two_le {d1 d2 : Char} (h1 : d1.isDigit = true) (h2 : d2.isDigit = true) :
    digitsVal [d1, d2] ≤ 99 := by
  have b1 := digit_toNat_le h1
  have b2 := digit_toNat_le h2
  rw [digitsVal_two]
  omega

theorem parseNatL_digits (l : List Char) (hne : l ≠ []) (hd : ∀ c ∈ l, c.isDigit = true) :
    parseNatL l = some (digitsVal l) := by
  rw [parseNatL, if_neg (by simpa using hne), if_pos (List.all_eq_true.mpr hd)]

theorem parseIntBits32_digits (l : List Char) (hne : l ≠ [])
    (hd : ∀ c ∈ l, c.isDigit = true) (hb : digitsVal l ≤ 2 ^ 31 - 1) :
    parseIntBits 32 l = some ((digitsVal l : ℤ)) := by
  obtain ⟨c, cs, rfl⟩ := List.exists_cons_of_ne_nil hne
  have hc := hd c (List.mem_cons_self c cs)
  rw [parseIntBits, parseIntRaw]
  rw [if_neg (digit_ne_of hc (by decide)), if_neg (digit_ne_of hc (by decide))]
  rw [parseNatL_digits _ hne hd]
  simp only [Option.map_some', Option.some_bind, Int.ofNat_eq_coe]
  have hcond : -(2 ^ (32 - 1) : ℤ) ≤ ((digitsVal (c :: cs) : ℕ) : ℤ)
      ∧ ((digitsVal (c :: cs) : ℕ) : ℤ) ≤ 2 ^ (32 - 1) - 1 := by
    constructor
    · calc -(2 ^ (32 - 1) : ℤ) ≤ 0 := by norm_num
        _ ≤ _ := Int.natCast_nonneg _
    · calc ((digitsVal (c :: cs) : ℕ) : ℤ) ≤ ((2 ^ 31 - 1 : ℕ) : ℤ) := by exact_mod_cast hb
        _ = 2 ^ (32 - 1) - 1 := by norm_num
  rw [if_pos hcond]

theorem spanDigits_append (a fp : List Char) (ha : ∀ c ∈ a, c.isDigit = true) :
    (a ++ '.' :: fp).takeWhile Char.isDigit = a
    ∧ (a ++ '.' :: fp).dropWhile Char.isDigit = '.' :: fp := by
  have hdot : ('.').isDigit = false := by decide
  induction a with
  | nil => simp [List.takeWhile_cons, List.dropWhile_cons, hdot]
  | cons c cs ih =>
    have hc := ha c (List.mem_cons_self c cs)
    have ihs := ih (fun x hx => ha x (List.mem_cons_of_mem c hx))
    simp only [List.cons_append, List.takeWhile_cons, List.dropWhile_cons, hc,
      if_true, ihs.1, ihs.2]
    simp

theorem parseGoFloatL_digits_dot (ds fp : List Char) (hne : ds ≠ [])
    (hds : ∀ c ∈ ds, c.isDigit = true) (hfp : ∀ c ∈ fp, c.isDigit = true) :
    parseGoFloatL (ds ++ '.' :: fp)
      = some ((digitsVal ds : ℚ) + (digitsVal fp : ℚ) / 10 ^ fp.length) := by
  obtain ⟨c, cs, rfl⟩ := List.exists_cons_of_ne_nil hne
  have hc := hds c (List.mem_cons_self c cs)
  have hspan := spanDigits_append (c :: cs) fp hds
  rw [List.cons_append, parseGoFloatL]
  rw [if_neg (digit_ne_of hc (by decide)), if_neg (digit_ne_of hc (by decide))]
  rw [← List.cons_append, parseGoFloatCore]
  simp only [hspan.1, hspan.2]
  rw [if_pos]
  constructor
  · exact List.all_eq_true.mpr hfp
  · simp

theorem goReplaceAllFuel_single_not_mem (c : Char) (new : List Char) :
    ∀ (fuel : ℕ) (l : List Char), c ∉ l → l.length < fuel →
      goReplaceAllFuel [c] new fuel l = l
  | 0, l, _, hf => by omega
  | _ + 1, [], _, _ => by rw [goReplaceAllFuel]
  | fuel + 1, x :: xs, h, hf => by
    have hx : ¬(c = x) := fun he => h (he ▸ List.mem_cons_self c xs)
    rw [goReplaceAllFuel, if_neg (by simp [startsWithL, hx])]
    rw [goReplaceAllFuel_single_not_mem c new fuel xs
      (fun hm => h (List.mem_cons_of_mem x hm)) (by simpa using Nat.lt_of_succ_lt_succ hf)]

theorem goReplaceAllL_single_not_mem (c : Char) (new l : List Char) (h : c ∉ l) :
    goReplaceAllL l [c] new = l :=
  goReplaceAllFuel_single_not_mem c new (l.length + 1) l h (by omega)

theorem goReplaceFirstL_first (a b : List Char) (c r : Char) (h : c ∉ a) :
    goReplaceFirstL (a ++ c :: b) [c] [r] = a ++ r :: b := by
  induction a with
  | nil =>
    rw [List.nil_append, goReplaceFirstL, if_pos (by simp [startsWithL])]
    simp
  | cons x xs ih =>
    have hx : ¬(c = x) := fun he => h (he ▸ List.mem_cons_self c xs)
    rw [List.cons_append, goReplaceFirstL, if_neg (by simp [startsWithL, hx])]
    rw [ih (fun hm => h (List.mem_cons_of_mem x hm))]
    simp

theorem idxOfCharL_append (c : Char) (a b : List Char) (h : c ∉ a) :
    idxOfCharL c (a ++ c :: b) = some a.length := by
  induction a with
  | nil => simp [idxOfCharL]
  | cons x xs ih =>
    have hx : ¬(x = c) := fun he => h (he ▸ List.mem_cons_self x xs)
    rw [List.cons_append, idxOfCharL, if_neg hx,
      ih (fun hm => h (List.mem_cons_of_mem x hm))]
    simp

theorem ratTrunc_congr {q1 q2 : ℚ} (h : q1 = q2) : ratTruncToNat q1 = ratTruncToNat q2 := by
  rw [h]

theorem size_value_eq (v dd : ℕ) (m : ℚ) :
    ratTruncToNat ((((v : ℤ) * 100 + (dd : ℤ) : ℤ) : ℚ) / 100 * m)
      = ratTruncToNat (((v : ℚ) + (dd : ℚ) / 100) * m) := by
  apply ratTrunc_congr
  push_cast
  ring

/-- C3 (amended): for every size value without thousands separators,
rendered the way each extractor actually receives it — digits, comma, two
decimal digits, with the unit suffix attached directly for the catalog-row
extractor and separated by a space for the detail-page path — the two
extractors produce the same canonical byte count, for each of the six unit
suffixes KB, MB, GB, TB, PB, EB.  (Strings carrying a `.` thousands
separator are rejected by the catalog-row extractor, see the
counterexample.) -/
theorem size_paths_agree_amended :
    ∀ (ds : List Char) (d1 d2 : Char) (u : String),
      ds ≠ [] → (∀ c ∈ ds, c.isDigit = true) → digitsVal ds ≤ 2 ^ 31 - 1 →
      d1.isDigit = true → d2.isDigit = true →
      u ∈ (["KB", "MB", "GB", "TB", "PB", "EB"] : List String) →
      parseTorrentEntrySize (String.mk (ds ++ ',' :: d1 :: d2 :: u.data))
        = some (stringToDatasize (String.mk (ds ++ ',' :: d1 :: d2 :: ' ' :: u.data))) := by
  intro ds d1 d2 u hne hds hb h1 h2 hu
  have hcomma_ds : ',' ∉ ds := fun hm => absurd (hds _ hm) (by decide)
  have hdot_ds : '.' ∉ ds := fun hm => absurd (hds _ hm) (by decide)
  have hspace_ds : ' ' ∉ ds := fun hm => absurd (hds _ hm) (by decide)
  have hidx : idxOfCharL ',' (ds ++ ',' :: d1 :: d2 :: u.data) = some ds.length :=
    idxOfCharL_append ',' ds _ hcomma_ds
  have hb2 : digitsVal [d1, d2] ≤ 2 ^ 31 - 1 := by
    have := digitsVal_two_le h1 h2
    omega
  have hds2 : ∀ c ∈ [d1, d2], c.isDigit = true := by
    intro c hc
    rcases List.mem_cons.mp hc with rfl | hc'
    · exact h1
    · rcases List.mem_cons.mp hc' with rfl | hc''
      · exact h2
      · simp at hc''
  have heq1 : ds ++ ',' :: d1 :: d2 :: u.data = (ds ++ [',']) ++ (d1 :: d2 :: u.data) := by
    simp
  have heq2 : ds ++ ',' :: d1 :: d2 :: u.data = (ds ++ [',', d1, d2]) ++ u.data := by
    simp
  have hdrop1 : List.drop (ds.length + 1) (ds ++ ',' :: d1 :: d2 :: u.data)
      = d1 :: d2 :: u.data := by
    rw [heq1]
    have : ds.length + 1 = (ds ++ [',']).length := by simp
    rw [this, List.drop_left]
  have hdrop3 : List.drop (ds.length + 3) (ds ++ ',' :: d1 :: d2 :: u.data) = u.data := by
    rw [heq2]
    have : ds.length + 3 = (ds ++ [',', d1, d2]).length := by simp
    rw [this, List.drop_left]
  have hsplitRHS : goSplitL ' ' (ds ++ ',' :: d1 :: d2 :: ' ' :: u.data)
      = (ds ++ [',', d1, d2]) :: goSplitL ' ' u.data := by
    have heq3 : ds ++ ',' :: d1 :: d2 :: ' ' :: u.data
        = (ds ++ [',', d1, d2]) ++ ' ' :: u.data := by simp
    rw [heq3]
    apply goSplitL_append_sep
    intro hm
    rcases List.mem_append.mp hm with hm' | hm'
    · exact hspace_ds hm'
    · rcases List.mem_cons.mp hm' with hx | hm2
      · exact absurd hx (by decide)
      · rcases List.mem_cons.mp hm2 with rfl | hm3
        · exact absurd h1 (by decide)
        · rcases List.mem_cons.mp hm3 with rfl | hm4
          · exact absurd h2 (by decide)
          · simp at hm4
  have hsp : ' ' ∉ u.data := by
    simp only [List.mem_cons, List.not_mem_nil, or_false] at hu
    rcases hu with rfl | rfl | rfl | rfl | rfl | rfl <;> decide
  have hdot_a : '.' ∉ ds ++ [',', d1, d2] := by
    intro hm
    rcases List.mem_append.mp hm with hm' | hm'
    · exact hdot_ds hm'
    · rcases List.mem_cons.mp hm' with hx | hm2
      · exact absurd hx (by decide)
      · rcases List.mem_cons.mp hm2 with rfl | hm3
        · exact absurd h1 (by decide)
        · rcases List.mem_cons.mp hm3 with rfl | hm4
          · exact absurd h2 (by decide)
          · simp at hm4
  -- reduce the catalog-row path
  simp only [parseTorrentEntrySize, hidx]
  rw [if_neg (by simp)]
  rw [List.take_left, parseIntBits32_digits ds hne hds hb, hdrop1]
  simp only [List.take_succ_cons, List.take_zero]
  rw [parseIntBits32_digits [d1, d2] (by simp) hds2 hb2]
  simp only [hdrop3]
  -- reduce the detail path
  simp only [stringToDatasize, goSplit]
  rw [hsplitRHS, goSplitL_not_mem ' ' u.data hsp]
  rw [if_neg (by simp)]
  simp only [List.headD_cons, List.getD_cons_succ, List.getD_cons_zero]
  rw [goReplaceAllL_single_not_mem '.' [] _ hdot_a]
  rw [goReplaceFirstL_first ds [d1, d2] ',' '.' hcomma_ds]
  rw [parseGoFloatL_digits_dot ds [d1, d2] hne hds hds2]
  simp only [Option.getD_some, List.length_cons, List.length_nil]
  have heta : (⟨u.data⟩ : String) = u := rfl
  rw [heta]
  simp only [List.mem_cons, List.not_mem_nil, or_false] at hu
  rcases hu with rfl | rfl | rfl | rfl | rfl | rfl <;>
    exact congrArg some (size_value_eq (digitsVal ds) (digitsVal [d1, d2]) _)

/-- Counterexample to C3 as stated: on the canonical thousands-separated
input `1.234,56 MB`, the catalog-row extractor fails outright — its
`ParseInt` of the part before the comma chokes on the `.` thousands
separator, so the record is rejected with a parse error — while the
detail-page path converts it to 1294529986 bytes.  The two extractors
therefore do not yield the same canonical value on such strings. -/
theorem size_paths_counterexample :
    parseTorrentEntrySize "1.234,56 MB" = none
    ∧ stringToDatasize "1.234,56 MB" = 1294529986 :=
  ⟨by decide, by with_unfolding_all decide⟩

/-- Witness for C3 (amended) at `1234,56` with unit `MB` in each
extractor's own rendering. -/
theorem size_paths_agree_amended_witness :
    parseTorrentEntrySize
        (String.mk (['1', '2', '3', '4'] ++ ',' :: '5' :: '6' :: ("MB" : String).data))
      = some (stringToDatasize
          (String.mk (['1', '2', '3', '4'] ++ ',' :: '5' :: '6' :: ' ' :: ("MB" : String).data))) :=
  size_paths_agree_amended ['1', '2', '3', '4'] '5' '6' "MB" (by decide) (by decide)
    (by decide) (by decide) (by decide) (by decide)